import Mathlib

/-!
Verification development for the invoice/bank reconciliation engine of
mc.py (class MatcheadorFacturas).

Modelling conventions:
- dates are integer day numbers (the tables reach the engine with day
  resolution after pd.to_datetime);
- monetary amounts are integers counting hundredths of the currency
  unit, which represents the decimal amounts of the tables exactly; the
  source literal 0.01 becomes the integer 1 on this scale;
- tables are lists of structures, rows in table order;
- the character-level primitives used by the name normalizer
  (str.upper, unicodedata NFKD decomposition, combining-mark test) are
  modelled over ASCII plus the accented Latin letters of Spanish names.
-/

/-- Combining marks produced by NFKD on the modelled accented letters:
acute (U+0301), tilde (U+0303), diaeresis (U+0308). -/
def combChars : List Char := ['\u0301', '\u0303', '\u0308']

/-- Models unicodedata.combining(ch) being nonzero. -/
def isCombining (c : Char) : Bool := decide (c ∈ combChars)

/-- Accent table: (letter, NFKD base, NFKD combining mark).  Covers the
uppercase accented letters of Spanish names; lowercase ones reach this
table only after pyUpper. -/
def accentTable : List (Char × Char × Char) :=
  [('Á', 'A', '\u0301'), ('É', 'E', '\u0301'), ('Í', 'I', '\u0301'),
   ('Ó', 'O', '\u0301'), ('Ú', 'U', '\u0301'), ('Ñ', 'N', '\u0303'),
   ('Ü', 'U', '\u0308')]

/-- Python str.upper restricted to the modelled alphabet: ASCII lowercase
and the accented lowercase letters map to their uppercase forms, every
other modelled character is fixed. -/
def pyUpper (c : Char) : Char :=
  if c = 'á' then 'Á'
  else if c = 'é' then 'É'
  else if c = 'í' then 'Í'
  else if c = 'ó' then 'Ó'
  else if c = 'ú' then 'Ú'
  else if c = 'ñ' then 'Ñ'
  else if c = 'ü' then 'Ü'
  else if 97 ≤ c.toNat ∧ c.toNat ≤ 122 then Char.ofNat (c.toNat - 32)
  else c

/-- NFKD decomposition of a single modelled character: an accented letter
decomposes into its base letter followed by a combining mark, everything
else is already decomposed. -/
def nfkdChar (c : Char) : List Char :=
  match accentTable.find? (fun p => p.1 = c) with
  | some p => [p.2.1, p.2.2]
  | none => [c]

/-- Characters kept by the regex character class A-Z0-9 used in
re.sub applied after upper-casing. -/
def isAlnumUpper (c : Char) : Bool :=
  decide (65 ≤ c.toNat ∧ c.toNat ≤ 90) || decide (48 ≤ c.toNat ∧ c.toNat ≤ 57)

/-- Whitespace for str.strip and str.split (the regex class backslash-s). -/
def isWsChar (c : Char) : Bool :=
  c == ' ' || c == '\t' || c == '\n' || c == '\r'

/-- One step of re.sub replacing every character outside A-Z0-9 and
whitespace by a space. -/
def subNonAlnum (c : Char) : Char :=
  if isAlnumUpper c || isWsChar c then c else ' '

/-- Helper for pyTokens: accumulates the current word reversed in acc. -/
def tokensAux : List Char → List Char → List String
  | [], acc => if acc.isEmpty then [] else [String.mk acc.reverse]
  | c :: cs, acc =>
    if isWsChar c then
      if acc.isEmpty then tokensAux cs []
      else String.mk acc.reverse :: tokensAux cs []
    else tokensAux cs (c :: acc)

/-- Python str.split with no argument: split on runs of whitespace,
discarding empty pieces. -/
def pyTokens (l : List Char) : List String := tokensAux l []

/-- Python str.strip: drop leading and trailing whitespace. -/
def stripWs (l : List Char) : List Char :=
  ((l.dropWhile isWsChar).reverse.dropWhile isWsChar).reverse

/-- Embedding of the nested helper normalize-to-token-set inside
obtener-familia-por-persona: the pd.isna / empty-string guard, then
upper-case, strip, NFKD-normalize, drop combining marks, replace
non-alphanumeric characters by spaces, split on whitespace and collect
the tokens into a set (frozenset in the source).  An absent value
(pd.isna) is modelled as none. -/
def _normalize_to_token_set (text : Option String) : Finset String :=
  match text with
  | none => ∅
  | some t =>
    if t = "" then ∅
    else
      let s1 := t.data.map pyUpper
      let s2 := stripWs s1
      let s3 := s2.flatMap nfkdChar
      let s4 := s3.filter (fun c => !isCombining c)
      let s5 := s4.map subNonAlnum
      (pyTokens s5).toFinset

/-- A household registry row: the household code (column Código) and the
person-slot columns, in the fixed order in which the source scans them
(columns containing "persona", sorted; equivalently the Persona_ columns
of the table in order).  An absent cell (pd.isna) is none. -/
structure FamiliaRow where
  codigo : String
  personas : List (Option String)
deriving Repr, DecidableEq

/-- The per-slot test of obtener-familia-por-persona: a present slot with
a nonempty token set yields the code of its row when its token set equals the
query token set or one is a subset of the other. -/
def slotCodigo (q : Finset String) (codigo : String) (slot : Option String) : Option String :=
  match slot with
  | none => none
  | some v =>
    let vt := _normalize_to_token_set (some v)
    if vt = ∅ then none
    else if q = vt ∨ q ⊆ vt ∨ vt ⊆ q then some codigo
    else none

/-- Embedding of MatcheadorFacturas._obtener_familia_por_persona: the
pd.isna / empty guard returns "No identificada"; otherwise the registry is
scanned row by row, each person slot normalized, empty token sets skipped,
and the first slot whose token set equals or is a subset (in either
direction) of the query token set returns the household code of that row;
"No encontrada" when the scan finds nothing. -/
def _obtener_familia_por_persona (familias : List FamiliaRow) (nombre : Option String) : String :=
  match nombre with
  | none => "No identificada"
  | some n =>
    if n = "" then "No identificada"
    else
      let q := _normalize_to_token_set (some n)
      match familias.findSome? (fun fam => fam.personas.findSome? (slotCodigo q fam.codigo)) with
      | some c => c
      | none => "No encontrada"

/-- Python upper().strip() composite used for the substring heuristic and
for bank-operation keys. -/
def pyUpperStrip (s : String) : List Char := stripWs (s.data.map pyUpper)

/-- Python substring test (the in operator on str): needle occurs
contiguously inside hay. -/
def subListaDe (needle hay : List Char) : Bool :=
  (List.range (hay.length + 1)).any (fun i => needle.isPrefixOf (hay.drop i))

/-- Embedding of MatcheadorFacturas._validar_pertenencia_familia: returns
the code of the first registry row one of whose person slots contains the
(stripped, upper-cased) query as a contiguous substring; none when the
name is absent or empty or no row matches. -/
def _validar_pertenencia_familia (familias : List FamiliaRow) (nombre : Option String) : Option String :=
  match nombre with
  | none => none
  | some n =>
    if n = "" then none
    else
      familias.findSome? (fun row =>
        row.personas.findSome? (fun slot =>
          match slot with
          | none => none
          | some v =>
            if subListaDe (pyUpperStrip n) (pyUpperStrip v) then some row.codigo
            else none))

/-- Stable insertion used by stableSort: the new element x goes after
every already-placed element y with y ≤ x, so elements with equal keys
keep their original relative order (the behaviour of the stable lexsort
pandas uses for multi-column sort-values). -/
def insStable (le : α → α → Bool) (x : α) : List α → List α
  | [] => [x]
  | y :: ys => if le y x then y :: insStable le x ys else x :: y :: ys

/-- Stable sort of a list by a boolean total preorder. -/
def stableSort (le : α → α → Bool) (l : List α) : List α :=
  l.foldl (fun acc x => insStable le x acc) []

/-- An invoice row (ventas table after column normalization and number-of-
till extraction).  Fecha, Nombre_Cliente and Monto may be missing
(pd.isna); Factura and Numero_Caja are carried as strings. -/
structure VentaRow where
  fecha : Option Int
  nombreCliente : Option String
  monto : Option Int
  factura : String
  numeroCaja : String
deriving Repr, DecidableEq

/-- A bank-operation row.  Ingestion keeps only rows with positive amount
and non-null payer name, and parses dates, so the three fields the passes
read are total here. -/
structure BancoRow where
  fecha : Int
  nombre : String
  monto : Int
deriving Repr, DecidableEq

/-- A Match Record.  Only the fields the claims read are modelled; the
purely reporting columns (Detalle_Banco, Comprobante_Banco, Concepto_Banco,
Cliente_Factura, Fecha_Factura, Coincidencia, Estado, Cantidad_Facturas)
are omitted.  facturas is the comma-joined Factura column as a list. -/
structure Record where
  tipoMatch : String
  fechaBanco : Int
  nombreBanco : String
  montoBanco : Int
  facturas : List String
  montoFactura : Int
  familia : String
  codigoFamilia : String
  numeroCaja : String
deriving Repr, DecidableEq

/-- Raw transaction key of a Match Record: the Fecha_Banco, Nombre_Banco
and Monto_Banco fields exactly as stored (what pass 3 uses). -/
def rawKey (r : Record) : Int × String × Int := (r.fechaBanco, r.nombreBanco, r.montoBanco)

/-- Coarse bank-operation key (pd.to_datetime, upper().strip(), float)
used by passes 2 and 4 for recording and testing consumption. -/
def coarseKey (k : Int × String × Int) : Int × List Char × Int := (k.1, pyUpperStrip k.2.1, k.2.2)

/-- Raw key of a bank row. -/
def bancoRawKey (b : BancoRow) : Int × String × Int := (b.fecha, b.nombre, b.monto)

/-- Embedding of matcheo_exacto (pass 1): for every invoice with non-null
date, client name and amount, every bank operation with equal date, equal
upper-cased name and equal amount yields one EXACTO Match Record.  No
consumption state is read or written; self.resultados is overwritten with
exactly these records. -/
def matcheo_exacto (familias : List FamiliaRow) (ventas : List VentaRow) (banco : List BancoRow) : List Record :=
  ventas.flatMap (fun venta =>
    match venta.fecha, venta.nombreCliente, venta.monto with
    | some f, some n, some m =>
      let coincidencias := banco.filter (fun b =>
        decide (b.fecha = f ∧ b.nombre.data.map pyUpper = n.data.map pyUpper ∧ b.monto = m))
      coincidencias.map (fun b =>
        let familia := _obtener_familia_por_persona familias (some n)
        { tipoMatch := "EXACTO"
          fechaBanco := b.fecha
          nombreBanco := b.nombre
          montoBanco := b.monto
          facturas := [venta.factura]
          montoFactura := m
          familia := familia
          codigoFamilia := if familia = "No encontrada" then "" else familia
          numeroCaja := venta.numeroCaja })
    | _, _, _ => [])

/-- A valid invoice row as used by passes 2 and 4: dropna applied to
Fecha / Nombre_Cliente / Monto, annotated with a resolved family code.
origIdx is the pandas row label, i.e. the position in the original
ventas table. -/
structure VentaValida where
  origIdx : Nat
  fecha : Int
  nombre : String
  monto : Int
  factura : String
  numeroCaja : String
  codFam : String
deriving Repr, DecidableEq

/-- Invoice numbers referenced by the existing Match Records (the source
splits the comma-joined Factura column; the record stores the list). -/
def facturasMatcheadas (rs : List Record) : List String := rs.flatMap (·.facturas)

/-- The pass-2 working table ventas_validas: invoices whose number is not
referenced by an existing Match Record, with non-null date/name/amount,
annotated with Codigo_Familia and restricted to identified families. -/
def ventasValidas2 (familias : List FamiliaRow) (ventas : List VentaRow) (rs : List Record) : List VentaValida :=
  ((ventas.enum.filter (fun p => decide (p.2.factura ∉ facturasMatcheadas rs))).filterMap (fun p =>
    match p.2.fecha, p.2.nombreCliente, p.2.monto with
    | some f, some n, some m =>
      some { origIdx := p.1, fecha := f, nombre := n, monto := m,
             factura := p.2.factura, numeroCaja := p.2.numeroCaja,
             codFam := _obtener_familia_por_persona familias (some n) }
    | _, _, _ => none)).filter
      (fun v => decide (¬(v.codFam = "No encontrada" ∨ v.codFam = "No identificada")))

/-- The pass-2 grouping key (Fecha, Numero_Caja, Codigo_Familia). -/
def grupoKey (v : VentaValida) : Int × String × String := (v.fecha, v.numeroCaja, v.codFam)

/-- Lexicographic order on group keys, as pandas groupby sorts them. -/
def keyLe2 (a b : Int × String × String) : Bool :=
  if a.1 ≠ b.1 then decide (a.1 < b.1)
  else if a.2.1 ≠ b.2.1 then decide (a.2.1 < b.2.1)
  else decide (a.2.2 ≤ b.2.2)

/-- The pandas groupby of the valid invoices: group keys in sorted order,
each with the rows carrying that key in table order. -/
def gruposDe (vv : List VentaValida) : List ((Int × String × String) × List VentaValida) :=
  (stableSort keyLe2 (vv.map grupoKey).dedup).map
    (fun k => (k, vv.filter (fun v => decide (grupoKey v = k))))

/-- Coarse keys of the already matched bank operations. -/
def opsMatcheadas (rs : List Record) : List (Int × List Char × Int) :=
  rs.map (fun r => coarseKey (rawKey r))

/-- banco_disponible: the bank rows whose coarse key is not already
matched. -/
def bancoDisponible (banco : List BancoRow) (rs : List Record) : List BancoRow :=
  banco.filter (fun b => decide (coarseKey (bancoRawKey b) ∉ opsMatcheadas rs))

/-- Application of a boolean mask aligned with a bank-row list. -/
def maskFilter (l : List BancoRow) (m : List Bool) : List BancoRow :=
  (l.zip m).filterMap (fun p => if p.2 then some p.1 else none)

/-- Python sorted over a deduplicated collection, semicolon-joined, as in
the Familia field of a pass-2 record. -/
def joinSortedSet (l : List String) : String :=
  String.intercalate ";" (stableSort (fun a b => decide (a ≤ b)) l.dedup)

/-- Pass-2 loop state: the local variable mask (unassigned at entry), the
growing matched_ops set, the accumulated new records and whether the
NameError at the coincidencias selection has fired. -/
structure St2 where
  mask : Option (List Bool)
  ops : List (Int × List Char × Int)
  nuevos : List Record
  errored : Bool
deriving Repr, DecidableEq

/-- The pass-2 record for one group and one coinciding bank operation. -/
def mkRecord2 (familias : List FamiliaRow) (gk : Int × String × String) (grupo : List VentaValida) (b : BancoRow) : Record :=
  let facturas := grupo.map (·.factura)
  let totalMonto := (grupo.map (·.monto)).sum
  let familiasL := (grupo.map (fun v => _obtener_familia_por_persona familias (some v.nombre))).filter (fun f => decide (f ≠ ""))
  let familiaVal := if familiasL.length > 0 then joinSortedSet familiasL else "No encontrada"
  { tipoMatch := "MULTI_FACTURAS"
    fechaBanco := b.fecha
    nombreBanco := b.nombre
    montoBanco := b.monto
    facturas := facturas
    montoFactura := totalMonto
    familia := familiaVal
    codigoFamilia := if familiaVal = "No encontrada" then "" else familiaVal
    numeroCaja := gk.2.1 }

/-- Inner pass-2 loop over the coincidencias: skip bank operations whose
coarse key is already in matched_ops, otherwise emit the group record and
consume the key. -/
def paso2Banco (familias : List FamiliaRow) (gk : Int × String × String) (grupo : List VentaValida) (st : St2) (b : BancoRow) : St2 :=
  let key := coarseKey (bancoRawKey b)
  if key ∈ st.ops then st
  else { st with nuevos := st.nuevos ++ [mkRecord2 familias gk grupo b], ops := key :: st.ops }

/-- One pass-2 group: groups of fewer than two invoices are skipped; the
mask variable is reassigned only when some available bank operation has
the date and total amount of the group, so a group with no such candidate reads
the mask of the previous group, or fails with NameError when no group assigned
it yet (errored state). -/
def paso2Grupo (familias : List FamiliaRow) (bancoDisp : List BancoRow) (st : St2) (g : (Int × String × String) × List VentaValida) : St2 :=
  if st.errored then st
  else if g.2.length < 2 then st
  else
    let totalMonto := (g.2.map (·.monto)).sum
    let maskFechaMonto := bancoDisp.map (fun b => b.fecha == g.1.1 && b.monto == totalMonto)
    let candidatosBanco := maskFilter bancoDisp maskFechaMonto
    let st1 :=
      if candidatosBanco.length > 0 then
        { st with mask := some (bancoDisp.map (fun b =>
            b.fecha == g.1.1 && b.monto == totalMonto &&
            decide (_obtener_familia_por_persona familias (some b.nombre) = g.1.2.2))) }
      else st
    match st1.mask with
    | none => { st1 with errored := true }
    | some m => (maskFilter bancoDisp m).foldl (paso2Banco familias g.1 g.2) st1

/-- Embedding of matcheo_multifacturas_misma_familia_dia_caja (pass 2).
none models the uncaught NameError raised when coincidencias is selected
while the mask variable was never assigned (the first processed group of
two or more invoices has no bank candidate with equal date and total). -/
def matcheo_multifacturas_misma_familia_dia_caja (familias : List FamiliaRow) (ventas : List VentaRow) (banco : List BancoRow) (rs : List Record) : Option (List Record) :=
  let vv := ventasValidas2 familias ventas rs
  let bancoDisp := bancoDisponible banco rs
  let st0 : St2 := { mask := none, ops := opsMatcheadas rs, nuevos := [], errored := false }
  let stF := (gruposDe vv).foldl (paso2Grupo familias bancoDisp) st0
  if stF.errored then none else some (rs ++ stF.nuevos)

/-- The pass-3 qualification of an invoice for a bank operation: the
client resolves (by the substring heuristic) to a nonempty family equal to
that of the payer, the amounts differ by strictly less than 0.01 and the dates
by at most one day.  Rows with missing date or amount never qualify (NaN
comparisons are falsy in the source). -/
def qual3 (familias : List FamiliaRow) (famP : String) (b : BancoRow) (venta : VentaRow) : Bool :=
  match _validar_pertenencia_familia familias venta.nombreCliente with
  | none => false
  | some fc =>
    decide (fc ≠ "") && decide (fc = famP) &&
    (match venta.monto, venta.fecha with
     | some mv, some fv => decide (|b.monto - mv| < 1 ∧ |b.fecha - fv| ≤ 1)
     | _, _ => false)

/-- The pass-3 inner loop: scan the full ventas table in order and stop at
the first qualifying invoice (the for-loop with break). -/
def busca3 (familias : List FamiliaRow) (famP : String) (b : BancoRow) : List VentaRow → Option VentaRow
  | [] => none
  | v :: vs => if qual3 familias famP b v then some v else busca3 familias famP b vs

/-- The pass-3 record.  The source row stores Grupo_Familiar (kept in the
familia field); the columns this pass does not write (Codigo_Familia,
Numero_Caja) are empty.  qual3 guarantees the invoice amount is present,
so the getD default is never read. -/
def mkRecord3 (famP : String) (b : BancoRow) (venta : VentaRow) : Record :=
  { tipoMatch := "Grupo Familiar"
    fechaBanco := b.fecha
    nombreBanco := b.nombre
    montoBanco := b.monto
    facturas := [venta.factura]
    montoFactura := venta.monto.getD 0
    familia := famP
    codigoFamilia := ""
    numeroCaja := "" }

/-- Pass-3 loop state: the raw-keyed matched_ops set and the accumulated
new records. -/
structure St3 where
  ops : List (Int × String × Int)
  nuevos : List Record
deriving Repr, DecidableEq

/-- One pass-3 bank operation: skip when its raw key is already matched or
the payer has no (nonempty) family; otherwise link the first qualifying
invoice, consume the key and emit one Grupo Familiar record. -/
def paso3 (familias : List FamiliaRow) (ventas : List VentaRow) (st : St3) (b : BancoRow) : St3 :=
  let opKey := bancoRawKey b
  if opKey ∈ st.ops then st
  else
    match _validar_pertenencia_familia familias (some b.nombre) with
    | none => st
    | some famP =>
      if famP = "" then st
      else
        match busca3 familias famP b ventas with
        | none => st
        | some venta =>
          { ops := opKey :: st.ops, nuevos := st.nuevos ++ [mkRecord3 famP b venta] }

/-- Embedding of matcheo_por_grupo_familiar (pass 3). -/
def matcheo_por_grupo_familiar (familias : List FamiliaRow) (ventas : List VentaRow) (banco : List BancoRow) (rs : List Record) : List Record :=
  let st0 : St3 := { ops := rs.map rawKey, nuevos := [] }
  let stF := banco.foldl (paso3 familias ventas) st0
  rs ++ stF.nuevos

/-- The pass-4 working table ventas_validas: dropna over the date, name
and amount columns — previously matched invoice numbers are NOT excluded —
annotated with Codigo_Familia_Venta.  origIdx is the pandas row label
addressed by the used-flag assignment. -/
def ventasValidas4 (familias : List FamiliaRow) (ventas : List VentaRow) : List VentaValida :=
  ventas.enum.filterMap (fun p =>
    match p.2.fecha, p.2.nombreCliente, p.2.monto with
    | some f, some n, some m =>
      some { origIdx := p.1, fecha := f, nombre := n, monto := m,
             factura := p.2.factura, numeroCaja := p.2.numeroCaja,
             codFam := _obtener_familia_por_persona familias (some n) }
    | _, _, _ => none)

/-- extraer_apellido: the last whitespace token of the upper-cased,
stripped name, or the empty string. -/
def extraer_apellido (nombre : String) : String :=
  match (pyTokens (pyUpperStrip nombre)).getLast? with
  | some t => t
  | none => ""

/-- itertools.combinations over a list, in the same lexicographic order:
combinations containing the head come first. -/
def combinaciones : Nat → List α → List (List α)
  | 0, _ => [[]]
  | _ + 1, [] => []
  | k + 1, x :: xs => (combinaciones k xs).map (fun c => x :: c) ++ combinaciones (k + 1) xs

/-- The pass-4 candidate pool for one bank operation.  With an identified
family: same-family rows not yet flagged used.  Otherwise the surname
fallback; an empty surname reaches the exact-name branch of the source,
which calls strip() on a pandas Series and raises AttributeError (none). -/
def candidatos4 (vv : List VentaValida) (usado : List Nat) (codFamBanco : String) (b : BancoRow) : Option (List VentaValida) :=
  if codFamBanco ∉ ["No encontrada", "No identificada", ""] then
    some (vv.filter (fun v => decide (v.codFam = codFamBanco ∧ v.origIdx ∉ usado)))
  else
    let clave := extraer_apellido b.nombre
    if clave = "" then none
    else
      some (vv.filter (fun v =>
        subListaDe clave.data (v.nombre.data.map pyUpper) && decide (v.origIdx ∉ usado)))

/-- Absolute day distance between an invoice and the bank operation. -/
def diffDias (b : BancoRow) (v : VentaValida) : Int := |v.fecha - b.fecha|

/-- The pass-4 candidate ordering: a first sort by date, then the stable
two-key sort by (diff_dias ascending, Monto descending). -/
def ordenarCandidatos (b : BancoRow) (cands : List VentaValida) : List VentaValida :=
  let porFecha := stableSort (fun u v => decide (u.fecha ≤ v.fecha)) cands
  stableSort (fun u v =>
    if diffDias b u ≠ diffDias b v then decide (diffDias b u < diffDias b v)
    else decide (v.monto ≤ u.monto)) porFecha

/-- The amount tolerance TOL of pass 4 (0.01 currency units, which is 1
on the hundredths scale of this embedding). -/
def TOL : Int := 1

/-- candidatos_restringidos.loc applied to a list of positional labels. -/
def subsetDe (cands : List VentaValida) (idxs : List Nat) : List VentaValida :=
  idxs.filterMap (fun i => cands[i]?)

/-- Sum of the amounts of the rows selected by a combination. -/
def sumaCombo (cands : List VentaValida) (idxs : List Nat) : Int :=
  ((subsetDe cands idxs).map (·.monto)).sum

/-- The k-combination search of pass 4 for a fixed k: the first
combination, in lexicographic index order, whose amount sum is within TOL
of the bank amount. -/
def buscaComboK (cands : List VentaValida) (montoBanco : Int) (k : Nat) : Option (List Nat) :=
  (combinaciones k (List.range cands.length)).find? (fun idxs =>
    decide (|sumaCombo cands idxs - montoBanco| ≤ TOL))

/-- The outer k loop of pass 4 with its break: the first group size whose
search succeeds wins and no further k is tried. -/
def buscaCombo (cands : List VentaValida) (montoBanco : Int) : List Nat → Option (List Nat)
  | [] => none
  | k :: ks =>
    match buscaComboK cands montoBanco k with
    | some idxs => some idxs
    | none => buscaCombo cands montoBanco ks

/-- The pass-4 record for one accepted combination. -/
def mkRecord4 (codFamBanco : String) (b : BancoRow) (subset : List VentaValida) : Record :=
  { tipoMatch := "MULTI_FACTURAS_FAMILIA_BANCO_PRIMERO"
    fechaBanco := b.fecha
    nombreBanco := b.nombre
    montoBanco := b.monto
    facturas := subset.map (·.factura)
    montoFactura := (subset.map (·.monto)).sum
    familia := codFamBanco
    codigoFamilia := if codFamBanco ∈ ["No encontrada", "No identificada"] then "" else codFamBanco
    numeroCaja := String.intercalate "," (subset.map (·.numeroCaja)).dedup }

/-- The used-flag assignment of the source: ventas_validas.loc is indexed
with the positional labels of the reset-index candidate frame, so the rows
whose pandas label equals one of the combination indices are flagged; a
label that exists in no row raises KeyError (none). -/
def marcarUsado (vv : List VentaValida) (usado : List Nat) (idxs : List Nat) : Option (List Nat) :=
  if ∀ i ∈ idxs, ∃ v ∈ vv, v.origIdx = i then some (usado ++ idxs)
  else none

/-- Pass-4 loop state: flagged row labels, coarse matched_ops, accumulated
records, and whether an exception fired. -/
structure St4 where
  usado : List Nat
  ops : List (Int × List Char × Int)
  nuevos : List Record
  errored : Bool
deriving Repr, DecidableEq

/-- One pass-4 bank operation: skip consumed coarse keys, resolve the
family of the payer, build the candidate pool, require at least two candidates,
sort and truncate to 15, search combinations of sizes 2..min(8, pool) and
accept the first within TOL; on acceptance emit the record, flag the
combination labels used and consume the coarse key. -/
def paso4 (familias : List FamiliaRow) (vv : List VentaValida) (st : St4) (b : BancoRow) : St4 :=
  if st.errored then st
  else
    let key := coarseKey (bancoRawKey b)
    if key ∈ st.ops then st
    else
      let codFamBanco := _obtener_familia_por_persona familias (some b.nombre)
      match candidatos4 vv st.usado codFamBanco b with
      | none => { st with errored := true }
      | some cands =>
        if cands.length < 2 then st
        else
          let restringidos := (ordenarCandidatos b cands).take 15
          let maxK := min 8 restringidos.length
          match buscaCombo restringidos b.monto (List.range' 2 (maxK - 1)) with
          | none => st
          | some idxs =>
            let subset := subsetDe restringidos idxs
            match marcarUsado vv st.usado idxs with
            | none => { st with errored := true }
            | some usado' =>
              { usado := usado', ops := key :: st.ops,
                nuevos := st.nuevos ++ [mkRecord4 codFamBanco b subset], errored := false }

/-- Embedding of matcheo_multifacturas_misma_familia_mismo_dia_caja
(pass 4).  none models an uncaught exception (AttributeError in the
exact-name fallback, KeyError in the used-flag assignment). -/
def matcheo_multifacturas_misma_familia_mismo_dia_caja (familias : List FamiliaRow) (ventas : List VentaRow) (banco : List BancoRow) (rs : List Record) : Option (List Record) :=
  let vv := ventasValidas4 familias ventas
  let st0 : St4 := { usado := [], ops := opsMatcheadas rs, nuevos := [], errored := false }
  let stF := banco.foldl (paso4 familias vv) st0
  if stF.errored then none else some (rs ++ stF.nuevos)

/-- The four passes composed in order on the loaded tables, threading
self.resultados; the driver of the source runs passes 1 and 2 and the other two
passes follow the same protocol.  none models an uncaught exception. -/
def runAll (familias : List FamiliaRow) (ventas : List VentaRow) (banco : List BancoRow) : Option (List Record) :=
  let r1 := matcheo_exacto familias ventas banco
  match matcheo_multifacturas_misma_familia_dia_caja familias ventas banco r1 with
  | none => none
  | some r2 =>
    let r3 := matcheo_por_grupo_familiar familias ventas banco r2
    matcheo_multifacturas_misma_familia_mismo_dia_caja familias ventas banco r3

/-- The identity key of spec invariant I1: transaction date, normalized
payer name (token set), amount. -/
def idKey (r : Record) : Int × Finset String × Int :=
  (r.fechaBanco, _normalize_to_token_set (some r.nombreBanco), r.montoBanco)

/-- The raw keys of appended records are distinct from those of all prior
records and pairwise distinct among themselves. -/
def FreshAppend (rs ns : List Record) : Prop :=
  (∀ n ∈ ns, ∀ r ∈ rs, rawKey n ≠ rawKey r) ∧
  ns.Pairwise (fun a b => rawKey a ≠ rawKey b)

/-- Transaction-key uniqueness outside pass 1: any two records of the
list sharing the raw transaction key are both EXACTO records. -/
def ClaveUnicaSalvoExacto (rs : List Record) : Prop :=
  rs.Pairwise (fun a b => rawKey a = rawKey b → a.tipoMatch = "EXACTO" ∧ b.tipoMatch = "EXACTO")

/-- Soundness of one pass-2 record (claim C4): it is tagged
MULTI_FACTURAS, carries a full (Fecha, Numero_Caja, Codigo_Familia) group
of at least two not-previously-referenced invoices with their total, and
links a bank operation with that exact date, amount equal to the total,
payer resolving to the family of the group and a key not consumed before the
pass. -/
def Rec2OK (familias : List FamiliaRow) (ventas : List VentaRow) (banco : List BancoRow) (rs : List Record) (n : Record) : Prop :=
  n.tipoMatch = "MULTI_FACTURAS" ∧
  ∃ gk : Int × String × String,
    2 ≤ ((ventasValidas2 familias ventas rs).filter (fun v => decide (grupoKey v = gk))).length ∧
    n.facturas = ((ventasValidas2 familias ventas rs).filter (fun v => decide (grupoKey v = gk))).map (·.factura) ∧
    n.montoFactura = (((ventasValidas2 familias ventas rs).filter (fun v => decide (grupoKey v = gk))).map (·.monto)).sum ∧
    n.numeroCaja = gk.2.1 ∧
    (∀ f ∈ n.facturas, f ∉ facturasMatcheadas rs) ∧
    ∃ b ∈ banco,
      coarseKey (bancoRawKey b) ∉ opsMatcheadas rs ∧
      b.fecha = gk.1 ∧
      b.monto = (((ventasValidas2 familias ventas rs).filter (fun v => decide (grupoKey v = gk))).map (·.monto)).sum ∧
      _obtener_familia_por_persona familias (some b.nombre) = gk.2.2 ∧
      n.fechaBanco = b.fecha ∧ n.nombreBanco = b.nombre ∧ n.montoBanco = b.monto

/-- Soundness of one pass-3 record (claim C6): it is tagged Grupo
Familiar, links a bank operation whose raw key was not already matched,
whose payer resolves by the substring heuristic to a nonempty family, and
carries exactly the first invoice of the table, in table order, that
qualifies for that operation; no earlier invoice qualifies. -/
def Rec3OK (familias : List FamiliaRow) (ventas : List VentaRow) (banco : List BancoRow) (rs : List Record) (n : Record) : Prop :=
  n.tipoMatch = "Grupo Familiar" ∧
  ∃ b ∈ banco,
    bancoRawKey b ∉ rs.map rawKey ∧
    n.fechaBanco = b.fecha ∧ n.nombreBanco = b.nombre ∧ n.montoBanco = b.monto ∧
    ∃ famP, famP ≠ "" ∧
      _validar_pertenencia_familia familias (some b.nombre) = some famP ∧
      n.familia = famP ∧
      ∃ i, ∃ hi : i < ventas.length,
        qual3 familias famP b (ventas.get ⟨i, hi⟩) = true ∧
        n.facturas = [(ventas.get ⟨i, hi⟩).factura] ∧
        ∀ j (hj : j < ventas.length), j < i → qual3 familias famP b (ventas.get ⟨j, hj⟩) = false

/-- Invariant carried through the pass-2 group loop: every record so far
has its coarse key in matched_ops, the new records are key-fresh and
sound, and every bank row selected by the currently assigned mask has
already been consumed (this is why a stale mask can never emit). -/
def Inv2 (familias : List FamiliaRow) (ventas : List VentaRow) (banco : List BancoRow) (rs : List Record) (st : St2) : Prop :=
  (∀ r ∈ rs ++ st.nuevos, coarseKey (rawKey r) ∈ st.ops) ∧
  FreshAppend rs st.nuevos ∧
  (∀ n ∈ st.nuevos, Rec2OK familias ventas banco rs n) ∧
  (∀ m, st.mask = some m →
    ∀ b ∈ maskFilter (bancoDisponible banco rs) m, coarseKey (bancoRawKey b) ∈ st.ops)

/-- Invariant of the pass-3 loop. -/
def Inv3 (familias : List FamiliaRow) (ventas : List VentaRow) (banco : List BancoRow) (rs : List Record) (st : St3) : Prop :=
  (∀ r ∈ rs ++ st.nuevos, rawKey r ∈ st.ops) ∧
  FreshAppend rs st.nuevos ∧
  (∀ n ∈ st.nuevos, Rec3OK familias ventas banco rs n)

/-- Invariant of the pass-4 loop. -/
def Inv4 (rs : List Record) (st : St4) : Prop :=
  (∀ r ∈ rs ++ st.nuevos, coarseKey (rawKey r) ∈ st.ops) ∧
  FreshAppend rs st.nuevos ∧
  (∀ n ∈ st.nuevos, n.tipoMatch = "MULTI_FACTURAS_FAMILIA_BANCO_PRIMERO")

/-- Pass-2 invoice exclusion (the provable part of invariant I2): a
MULTI_FACTURAS record never references an invoice number already carried
by an earlier EXACTO record. -/
def ExclusionFacturasPase2 (rs : List Record) : Prop :=
  rs.Pairwise (fun a b =>
    a.tipoMatch = "EXACTO" → b.tipoMatch = "MULTI_FACTURAS" →
    ∀ f ∈ b.facturas, f ∉ a.facturas)

/-- The boolean row-match of the family resolver: some person slot has a
nonempty token set that equals, contains or is contained in the query
token set. -/
def slotMatch (q : Finset String) (slot : Option String) : Bool :=
  match slot with
  | none => false
  | some v =>
    let vt := _normalize_to_token_set (some v)
    decide (¬vt = ∅) && decide (q = vt ∨ q ⊆ vt ∨ vt ⊆ q)

/-- A registry row matches the query when one of its slots does. -/
def filaCoincide (q : Finset String) (fam : FamiliaRow) : Bool :=
  fam.personas.any (slotMatch q)

/-- Modelled from the words of claim C3, for comparison with the
source: the per-slot test exactly as the claim states it — the slot
token set equals, contains, or is contained in the query token set —
without the skip, present in the source, of slots whose token set is empty. -/
def slotCodigoSpec (q : Finset String) (codigo : String) (slot : Option String) : Option String :=
  match slot with
  | none => none
  | some v =>
    let vt := _normalize_to_token_set (some v)
    if q = vt ∨ q ⊆ vt ∨ vt ⊆ q then some codigo else none

/-- Modelled from the words of claim C3: the resolver returning the code
of the first entry having a person slot whose normalized token set equals,
contains, or is contained in that of the query. -/
def _obtener_familia_spec (familias : List FamiliaRow) (nombre : Option String) : String :=
  match nombre with
  | none => "No identificada"
  | some n =>
    if n = "" then "No identificada"
    else
      let q := _normalize_to_token_set (some n)
      match familias.findSome? (fun fam => fam.personas.findSome? (slotCodigoSpec q fam.codigo)) with
      | some c => c
      | none => "No encontrada"

/-- The canonical form of one character under the normalizer: upper-case,
NFKD-decompose, drop combining marks, keep A-Z0-9, send whitespace and
punctuation to a space. -/
def charNorm (c : Char) : List Char :=
  ((nfkdChar (pyUpper c)).filter (fun d => !isCombining d)).map subNonAlnum

/-- Two names differ only in accents, case, or punctuation treated as
whitespace: position by position their characters have the same canonical
form. -/
def nombresEquivalentes (a b : String) : Prop :=
  a.data.map charNorm = b.data.map charNorm

/-- A textual rendering of a list of tokens: joined by single spaces. -/
def joinTokens : List (List Char) → List Char
  | [] => []
  | [s] => s
  | s :: rest => s ++ ' ' :: joinTokens rest

/-- Concrete tables used by the counterexamples and witnesses below. -/
def ventasC1 : List VentaRow :=
  [⟨some 1, some "JUAN", some 100, "A", "1"⟩, ⟨some 1, some "JUAN", some 100, "B", "1"⟩]

def bancoC1 : List BancoRow := [⟨1, "JUAN", 100⟩]

def famsW1 : List FamiliaRow := [⟨"F1", [some "JUAN"]⟩]

def ventasW1 : List VentaRow := [⟨some 1, some "JUAN", some 100, "A", "1"⟩]

def famsC2 : List FamiliaRow := [⟨"F2", [some "JUAN PEREZ", some "MARIA PEREZ"]⟩]

def ventasC2 : List VentaRow :=
  [⟨some 10, some "JUAN PEREZ", some 30000, "A", "1"⟩,
   ⟨some 10, some "JUAN PEREZ", some 40000, "B", "1"⟩,
   ⟨some 10, some "JUAN PEREZ", some 50000, "C", "1"⟩,
   ⟨some 10, some "JUAN PEREZ", some 29900, "D", "1"⟩]

def bancoC2 : List BancoRow := [⟨10, "JUAN PEREZ", 90000⟩, ⟨10, "MARIA PEREZ", 79900⟩]

def famsC4 : List FamiliaRow := [⟨"F1", [some "JUAN PEREZ"]⟩]

def ventasC4 : List VentaRow :=
  [⟨some 1, some "JUAN PEREZ", some 10000, "A", "1"⟩,
   ⟨some 1, some "JUAN PEREZ", some 20000, "B", "1"⟩]

def bancoC4 : List BancoRow := [⟨1, "JUAN PEREZ", 30000⟩]

def famsC5 : List FamiliaRow := [⟨"F2", [some "JUAN PEREZ"]⟩]

def ventasC5 : List VentaRow :=
  [⟨some 10, some "JUAN PEREZ", some 30000, "A", "1"⟩,
   ⟨some 10, some "JUAN PEREZ", some 40000, "B", "1"⟩,
   ⟨some 10, some "JUAN PEREZ", some 30000, "C", "1"⟩]

def ventasC6 : List VentaRow := [⟨some 1, some "JUAN PEREZ", some 10000, "A", "1"⟩]

def bancoC6 : List BancoRow := [⟨2, "PEREZ", 10000⟩]

def ventasC7 : List VentaRow := [⟨some 1, some "JUAN", some 100, "A", "1"⟩]

def bancoC7 : List BancoRow := [⟨1, "JUAN", 100⟩, ⟨1, "JUAN", 100⟩]

def ventasW7 : List VentaRow :=
  [⟨some 1, some "JUAN PEREZ", some 10000, "A", "1"⟩,
   ⟨some 1, some "JUAN PEREZ", some 20000, "B", "1"⟩,
   ⟨some 1, some "JUAN PEREZ", some 50000, "C", "1"⟩]

def bancoW7 : List BancoRow := [⟨1, "JUAN PEREZ", 50000⟩, ⟨1, "JUAN PEREZ", 30000⟩]

def ventasC8 : List VentaRow :=
  [⟨some 1, some "JUAN PEREZ", some 10000, "A", "1"⟩,
   ⟨some 1, some "JUAN PEREZ", some 20000, "B", "1"⟩]

def bancoC8 : List BancoRow := [⟨1, "JUAN PEREZ", 99⟩]

def regC3 : List FamiliaRow := [⟨"F1", [some "..."]⟩, ⟨"F2", [some "JUAN"]⟩]

/-- Claim C1, counterexample.  Pass 1 consumes no transaction keys: with
two invoices both dated day 1, client JUAN, amount 100 and a single bank
credit (1, JUAN, 100), the four-pass run ends with two Match Records
carrying the same identity key (date, normalized payer name, amount), so
the key is consumed by two records, against invariant I1 as claimed. -/
theorem C1_counterexample :
    (runAll [] ventasC1 bancoC1).map (fun rs => rs.map idKey) =
      some [(1, {"JUAN"}, 100), (1, {"JUAN"}, 100)] := by decide

/-- Claim C8, code and claim agree that this is a fault: with a first
group of two invoices (total 30000) and no available bank operation of
equal date and amount (the only credit is 99), pass 2 reads the never
assigned filter variable mask and dies with a NameError (modelled by the
none result and the errored final state whose mask is still unassigned). -/
theorem C8_mask_name_error :
    matcheo_multifacturas_misma_familia_dia_caja famsC4 ventasC8 bancoC8 [] = none ∧
    ((gruposDe (ventasValidas2 famsC4 ventasC8 [])).foldl
        (paso2Grupo famsC4 (bancoDisponible bancoC8 []))
        { mask := none, ops := opsMatcheadas [], nuevos := [], errored := false }).mask = none ∧
    ((gruposDe (ventasValidas2 famsC4 ventasC8 [])).foldl
        (paso2Grupo famsC4 (bancoDisponible bancoC8 []))
        { mask := none, ops := opsMatcheadas [], nuevos := [], errored := false }).errored = true := by
  decide

/-- Claim C5.  Pass 4 accepts a combination exactly when the invoice sum
is within 0.01 of the credit (comparison with TOL is non-strict): with
same-family invoices of 300, 400 and 300, a credit of 1000 and one of
999.99 (difference exactly 0.01) match all three invoices, while a credit
of 999.9 produces no match.  Amounts are in hundredths of the unit. -/
theorem C5_tolerance_boundary :
    (matcheo_multifacturas_misma_familia_mismo_dia_caja famsC5 ventasC5 [⟨10, "JUAN PEREZ", 100000⟩] []).map
        (fun rs => rs.map (fun r => (r.tipoMatch, r.facturas, r.montoFactura))) =
      some [("MULTI_FACTURAS_FAMILIA_BANCO_PRIMERO", ["B", "A", "C"], 100000)] ∧
    (matcheo_multifacturas_misma_familia_mismo_dia_caja famsC5 ventasC5 [⟨10, "JUAN PEREZ", 99999⟩] []).map
        (fun rs => rs.map (fun r => (r.tipoMatch, r.facturas, r.montoFactura))) =
      some [("MULTI_FACTURAS_FAMILIA_BANCO_PRIMERO", ["B", "A", "C"], 100000)] ∧
    matcheo_multifacturas_misma_familia_mismo_dia_caja famsC5 ventasC5 [⟨10, "JUAN PEREZ", 99990⟩] [] = some [] ∧
    |(100000 : Int) - 99999| ≤ TOL ∧ ¬|(100000 : Int) - 99990| ≤ TOL := by decide

/-- Claim C2, evaluation at the failing input.  The used-flag assignment
indexes ventas_validas with the positional labels of the reset-index
candidate frame: for the 90000 credit the accepted combination is rows C
and B (labels 2 and 1), but the rows flagged used are labels 0 and 1
(A and B), so invoice C remains available and is reused by the second
credit — the final used-label list is [0, 1, 0, 1] and invoice C appears
in both emitted records. -/
theorem C2_pass4_marks_wrong_rows :
    (matcheo_multifacturas_misma_familia_mismo_dia_caja famsC2 ventasC2 bancoC2 []).map
        (fun rs => rs.map (·.facturas)) = some [["C", "B"], ["C", "D"]] ∧
    (bancoC2.foldl (paso4 famsC2 (ventasValidas4 famsC2 ventasC2))
        { usado := [], ops := opsMatcheadas [], nuevos := [], errored := false }).usado = [0, 1, 0, 1] := by
  decide

/-- Claim C7, counterexample.  Within pass 1 a single invoice is attached
to two Match Records when two bank rows carry the same date, name and
amount: both EXACTO records reference invoice A. -/
theorem C7_counterexample :
    (runAll [] ventasC7 bancoC7).map (fun rs => rs.map (fun r => (r.tipoMatch, r.facturas))) =
      some [("EXACTO", ["A"]), ("EXACTO", ["A"])] := by decide

/-- Claim C9, counterexample.  The token set is empty not only for empty
or absent input: a present, nonempty input consisting of punctuation only
also normalizes to the empty set. -/
theorem C9_counterexample :
    _normalize_to_token_set (some ".") = ∅ ∧ "." ≠ "" ∧ some "." ≠ (none : Option String) := by
  decide

/-- Claim C3, counterexample.  The rule of the claim (first entry having a
person slot whose token set equals, contains or is contained in the query
tokens) selects F1, because the empty token set of the slot holding only
dots is contained in every query; the source skips slots with empty token
sets and returns F2. -/
theorem C3_counterexample :
    _obtener_familia_por_persona regC3 (some "JUAN") = "F2" ∧
    _obtener_familia_spec regC3 (some "JUAN") = "F1" ∧
    _normalize_to_token_set (some "...") ⊆ _normalize_to_token_set (some "JUAN") := by
  decide

theorem findSome?_slotCodigo (q : Finset String) (c : String) (ps : List (Option String)) :
    ps.findSome? (slotCodigo q c) = if ps.any (slotMatch q) then some c else none := by
  induction ps with
  | nil => rfl
  | cons s ps ih =>
    rw [List.findSome?_cons, List.any_cons]
    cases s with
    | none => simpa [slotCodigo, slotMatch] using ih
    | some v =>
      by_cases h0 : _normalize_to_token_set (some v) = ∅
      · simp [slotCodigo, slotMatch, h0, ih]
      · by_cases hc : q = _normalize_to_token_set (some v) ∨
            q ⊆ _normalize_to_token_set (some v) ∨ _normalize_to_token_set (some v) ⊆ q
        · simp [slotCodigo, slotMatch, h0, hc]
        · simp [slotCodigo, slotMatch, h0, hc, ih]

theorem findSome?_filas (q : Finset String) (familias : List FamiliaRow) :
    familias.findSome? (fun fam => fam.personas.findSome? (slotCodigo q fam.codigo)) =
      (familias.find? (filaCoincide q)).map (·.codigo) := by
  induction familias with
  | nil => rfl
  | cons fam fams ih =>
    rw [List.findSome?_cons, findSome?_slotCodigo]
    have hfc : fam.personas.any (slotMatch q) = filaCoincide q fam := rfl
    rw [hfc]
    by_cases h : filaCoincide q fam = true
    · rw [if_pos h, List.find?_cons_of_pos _ h]
      rfl
    · rw [if_neg h]
      simpa [List.find?_cons_of_neg _ h] using ih

/-- Claim C3, amended.  The resolver returns No identificada exactly on
empty or absent input; otherwise it returns the household code of the
first registry entry (rows in order, slots in order) having a person slot
whose NONEMPTY normalized token set equals, contains or is contained in
the query token set, and No encontrada when no entry matches. -/
theorem C3_family_resolver_first_match (familias : List FamiliaRow) (t : String) (ht : t ≠ "") :
    _obtener_familia_por_persona familias none = "No identificada" ∧
    _obtener_familia_por_persona familias (some "") = "No identificada" ∧
    (∀ fam, familias.find? (filaCoincide (_normalize_to_token_set (some t))) = some fam →
      _obtener_familia_por_persona familias (some t) = fam.codigo) ∧
    (familias.find? (filaCoincide (_normalize_to_token_set (some t))) = none →
      _obtener_familia_por_persona familias (some t) = "No encontrada") := by
  refine ⟨rfl, rfl, ?_, ?_⟩
  · intro fam hfam
    show (if t = "" then "No identificada" else _) = _
    rw [if_neg ht]
    rw [findSome?_filas, hfam]
    rfl
  · intro hnone
    show (if t = "" then "No identificada" else _) = _
    rw [if_neg ht]
    rw [findSome?_filas, hnone]
    rfl

/-- Witness for C3: the amended characterization applied to a concrete
registry and query. -/
theorem C3_family_resolver_witness :
    ("PEREZ JUAN" ≠ "") ∧
    (_obtener_familia_por_persona famsC4 none = "No identificada" ∧
     _obtener_familia_por_persona famsC4 (some "") = "No identificada" ∧
     (∀ fam, famsC4.find? (filaCoincide (_normalize_to_token_set (some "PEREZ JUAN"))) = some fam →
       _obtener_familia_por_persona famsC4 (some "PEREZ JUAN") = fam.codigo) ∧
     (famsC4.find? (filaCoincide (_normalize_to_token_set (some "PEREZ JUAN"))) = none →
       _obtener_familia_por_persona famsC4 (some "PEREZ JUAN") = "No encontrada")) :=
  ⟨by decide, C3_family_resolver_first_match famsC4 "PEREZ JUAN" (by decide)⟩

theorem foldl_preserva {σ α : Type _} (P : σ → Prop) (f : σ → α → σ)
    (l : List α) (hstep : ∀ s, ∀ a ∈ l, P s → P (f s a)) :
    ∀ s, P s → P (l.foldl f s) := by
  induction l with
  | nil => intro s hs; exact hs
  | cons a l ih =>
    intro s hs
    exact ih (fun s' a' ha' => hstep s' a' (List.mem_cons_of_mem _ ha')) _
      (hstep s a (List.mem_cons_self _ _) hs)

theorem busca3_first (familias : List FamiliaRow) (famP : String) (b : BancoRow)
    (l : List VentaRow) :
    ∀ v : VentaRow, busca3 familias famP b l = some v →
      ∃ i, ∃ hi : i < l.length, l.get ⟨i, hi⟩ = v ∧ qual3 familias famP b v = true ∧
        ∀ j (hj : j < l.length), j < i → qual3 familias famP b (l.get ⟨j, hj⟩) = false := by
  induction l with
  | nil => intro v hv; cases hv
  | cons w ws ih =>
    intro v hv
    by_cases hq : qual3 familias famP b w = true
    · rw [busca3, if_pos hq] at hv
      injection hv with hv
      subst hv
      exact ⟨0, Nat.succ_pos _, rfl, hq, fun j hj hji => absurd hji (Nat.not_lt_zero j)⟩
    · rw [busca3, if_neg hq] at hv
      obtain ⟨i, hi, hget, hqv, hearlier⟩ := ih v hv
      refine ⟨i + 1, Nat.succ_lt_succ hi, hget, hqv, ?_⟩
      intro j hj hji
      cases j with
      | zero =>
        simp only [Bool.not_eq_true] at hq
        exact hq
      | succ j' => exact hearlier j' (Nat.lt_of_succ_lt_succ hj) (Nat.lt_of_succ_lt_succ hji)

theorem paso3_inv (familias : List FamiliaRow) (ventas : List VentaRow) (banco : List BancoRow)
    (rs : List Record) (b : BancoRow) (hb : b ∈ banco) (st : St3)
    (h : Inv3 familias ventas banco rs st) :
    Inv3 familias ventas banco rs (paso3 familias ventas st b) := by
  obtain ⟨hops, ⟨hfresh1, hfresh2⟩, hrec⟩ := h
  simp only [paso3]
  by_cases hk : bancoRawKey b ∈ st.ops
  · rw [if_pos hk]; exact ⟨hops, ⟨hfresh1, hfresh2⟩, hrec⟩
  · rw [if_neg hk]
    cases hval : _validar_pertenencia_familia familias (some b.nombre) with
    | none => exact ⟨hops, ⟨hfresh1, hfresh2⟩, hrec⟩
    | some famP =>
      dsimp only
      by_cases hfP : famP = ""
      · rw [if_pos hfP]; exact ⟨hops, ⟨hfresh1, hfresh2⟩, hrec⟩
      · rw [if_neg hfP]
        cases hbus : busca3 familias famP b ventas with
        | none => exact ⟨hops, ⟨hfresh1, hfresh2⟩, hrec⟩
        | some venta =>
          refine ⟨?_, ⟨?_, ?_⟩, ?_⟩
          · intro r hr
            rcases List.mem_append.mp hr with hr | hr
            · exact List.mem_cons_of_mem _ (hops r (List.mem_append_left _ hr))
            · rcases List.mem_append.mp hr with hr | hr
              · exact List.mem_cons_of_mem _ (hops r (List.mem_append_right _ hr))
              · rcases List.mem_singleton.mp hr with rfl
                exact List.mem_cons_self _ _
          · intro n hn r hr
            rcases List.mem_append.mp hn with hn | hn
            · exact hfresh1 n hn r hr
            · rcases List.mem_singleton.mp hn with rfl
              intro heq
              apply hk
              have h2 : bancoRawKey b = rawKey r := heq
              rw [h2]
              exact hops r (List.mem_append_left _ hr)
          · refine List.pairwise_append.mpr ⟨hfresh2, List.pairwise_singleton _ _, ?_⟩
            intro a ha c hc
            rcases List.mem_singleton.mp hc with rfl
            intro heq
            apply hk
            have h2 : rawKey a = bancoRawKey b := heq
            rw [← h2]
            exact hops a (List.mem_append_right _ ha)
          · intro n hn
            rcases List.mem_append.mp hn with hn | hn
            · exact hrec n hn
            · rcases List.mem_singleton.mp hn with rfl
              obtain ⟨i, hi, hget, hqv, hearlier⟩ := busca3_first familias famP b ventas venta hbus
              refine ⟨rfl, b, hb, ?_, rfl, rfl, rfl, famP, hfP, hval, rfl, i, hi, ?_, ?_, hearlier⟩
              · intro hmem
                obtain ⟨r, hr, hkey⟩ := List.mem_map.mp hmem
                exact hk (hkey ▸ hops r (List.mem_append_left _ hr))
              · rw [hget]; exact hqv
              · rw [hget]
                rfl

theorem matcheo3_spec (familias : List FamiliaRow) (ventas : List VentaRow)
    (banco : List BancoRow) (rs : List Record) :
    ∃ ns, matcheo_por_grupo_familiar familias ventas banco rs = rs ++ ns ∧
      FreshAppend rs ns ∧ ∀ n ∈ ns, Rec3OK familias ventas banco rs n := by
  have h := foldl_preserva (Inv3 familias ventas banco rs) (paso3 familias ventas) banco
    (fun s a ha hs => paso3_inv familias ventas banco rs a ha s hs)
    { ops := rs.map rawKey, nuevos := [] }
    ⟨by
      intro r hr
      rw [List.append_nil] at hr
      exact List.mem_map_of_mem _ hr,
     ⟨fun n hn => absurd hn (List.not_mem_nil n), List.Pairwise.nil⟩,
     fun n hn => absurd hn (List.not_mem_nil n)⟩
  exact ⟨_, rfl, h.2.1, h.2.2⟩

/-- Claim C6.  Pass 3 appends, for each bank operation whose raw key was
not yet consumed and whose payer resolves by substring containment to a
nonempty family, at most one record per transaction key, tagged Grupo
Familiar and linking exactly the first invoice in table order that belongs
to the same family with amount difference strictly below 0.01 and date
within one calendar day; no earlier invoice qualifies, so the scan stops
at the first hit. -/
theorem C6_family_pair_first_found (familias : List FamiliaRow) (ventas : List VentaRow)
    (banco : List BancoRow) (rs : List Record) :
    ∃ ns, matcheo_por_grupo_familiar familias ventas banco rs = rs ++ ns ∧
      ns.Pairwise (fun a b => rawKey a ≠ rawKey b) ∧
      ∀ n ∈ ns, Rec3OK familias ventas banco rs n := by
  obtain ⟨ns, heq, ⟨_, hpw⟩, hrec⟩ := matcheo3_spec familias ventas banco rs
  exact ⟨ns, heq, hpw, hrec⟩

theorem vv2_factura_fresh (familias : List FamiliaRow) (ventas : List VentaRow)
    (rs : List Record) (v : VentaValida)
    (hv : v ∈ ventasValidas2 familias ventas rs) : v.factura ∉ facturasMatcheadas rs := by
  rcases List.mem_filter.mp hv with ⟨hv1, _⟩
  rcases List.mem_filterMap.mp hv1 with ⟨p, hp, hpv⟩
  rcases List.mem_filter.mp hp with ⟨_, hfreshp⟩
  have hfr := of_decide_eq_true hfreshp
  rcases p with ⟨i, vr⟩
  cases hf : vr.fecha <;> cases hn : vr.nombreCliente <;> cases hm : vr.monto <;>
      rw [hf, hn, hm] at hpv <;> cases hpv <;> exact hfr

theorem gruposDe_mem (vv : List VentaValida) (g : (Int × String × String) × List VentaValida)
    (hg : g ∈ gruposDe vv) : g.2 = vv.filter (fun v => decide (grupoKey v = g.1)) := by
  unfold gruposDe at hg
  rcases List.mem_map.mp hg with ⟨k, _, hk⟩
  rw [← hk]

theorem mem_maskFilter_map (p : BancoRow → Bool) (b : BancoRow) :
    ∀ l : List BancoRow, b ∈ maskFilter l (l.map p) → b ∈ l ∧ p b = true := by
  intro l
  induction l with
  | nil => intro h; cases h
  | cons x l ih =>
    intro h
    rw [maskFilter, List.map_cons, List.zip_cons_cons, List.filterMap_cons] at h
    by_cases hp : p x = true
    · simp only [hp, if_true] at h
      rcases List.mem_cons.mp h with rfl | h
      · exact ⟨List.mem_cons_self _ _, hp⟩
      · rcases ih h with ⟨h1, h2⟩
        exact ⟨List.mem_cons_of_mem _ h1, h2⟩
    · simp only [Bool.not_eq_true] at hp
      simp only [hp, if_false] at h
      rcases ih h with ⟨h1, h2⟩
      exact ⟨List.mem_cons_of_mem _ h1, h2⟩

theorem mem_bancoDisponible (banco : List BancoRow) (rs : List Record) (b : BancoRow)
    (hb : b ∈ bancoDisponible banco rs) :
    b ∈ banco ∧ coarseKey (bancoRawKey b) ∉ opsMatcheadas rs := by
  rcases List.mem_filter.mp hb with ⟨h1, h2⟩
  exact ⟨h1, of_decide_eq_true h2⟩

theorem paso2Banco_fold (familias : List FamiliaRow) (ventas : List VentaRow)
    (banco : List BancoRow) (rs : List Record)
    (gk : Int × String × String) (grupo : List VentaValida)
    (hgr : grupo = (ventasValidas2 familias ventas rs).filter (fun v => decide (grupoKey v = gk)))
    (hlen : 2 ≤ grupo.length) :
    ∀ (coinc : List BancoRow) (st : St2),
      ((∀ r ∈ rs ++ st.nuevos, coarseKey (rawKey r) ∈ st.ops) ∧
       FreshAppend rs st.nuevos ∧
       (∀ n ∈ st.nuevos, Rec2OK familias ventas banco rs n)) →
      (∀ b ∈ coinc, coarseKey (bancoRawKey b) ∈ st.ops ∨
        (b ∈ banco ∧ coarseKey (bancoRawKey b) ∉ opsMatcheadas rs ∧
         b.fecha = gk.1 ∧ b.monto = (grupo.map (·.monto)).sum ∧
         _obtener_familia_por_persona familias (some b.nombre) = gk.2.2)) →
      ((∀ r ∈ rs ++ (coinc.foldl (paso2Banco familias gk grupo) st).nuevos,
          coarseKey (rawKey r) ∈ (coinc.foldl (paso2Banco familias gk grupo) st).ops) ∧
       FreshAppend rs (coinc.foldl (paso2Banco familias gk grupo) st).nuevos ∧
       (∀ n ∈ (coinc.foldl (paso2Banco familias gk grupo) st).nuevos,
          Rec2OK familias ventas banco rs n)) ∧
      (coinc.foldl (paso2Banco familias gk grupo) st).mask = st.mask ∧
      (coinc.foldl (paso2Banco familias gk grupo) st).errored = st.errored ∧
      (∀ k ∈ st.ops, k ∈ (coinc.foldl (paso2Banco familias gk grupo) st).ops) ∧
      (∀ b ∈ coinc, coarseKey (bancoRawKey b) ∈ (coinc.foldl (paso2Banco familias gk grupo) st).ops) := by
  intro coinc
  induction coinc with
  | nil =>
    intro st hcore _
    exact ⟨hcore, rfl, rfl, fun k hk => hk, fun b hb => absurd hb (List.not_mem_nil b)⟩
  | cons b coinc ih =>
    intro st hcore hcoinc
    obtain ⟨hops, ⟨hfresh1, hfresh2⟩, hrec⟩ := hcore
    rw [List.foldl_cons]
    by_cases hk : coarseKey (bancoRawKey b) ∈ st.ops
    · have hstep : paso2Banco familias gk grupo st b = st := by
        simp only [paso2Banco]
        rw [if_pos hk]
      rw [hstep]
      have hres := ih st ⟨hops, ⟨hfresh1, hfresh2⟩, hrec⟩
        (fun b' hb' => hcoinc b' (List.mem_cons_of_mem _ hb'))
      refine ⟨hres.1, hres.2.1, hres.2.2.1, hres.2.2.2.1, ?_⟩
      intro b' hb'
      rcases List.mem_cons.mp hb' with rfl | hb'
      · exact hres.2.2.2.1 _ hk
      · exact hres.2.2.2.2 b' hb'
    · have hPB := (hcoinc b (List.mem_cons_self _ _)).resolve_left hk
      have hstep : paso2Banco familias gk grupo st b =
          { st with nuevos := st.nuevos ++ [mkRecord2 familias gk grupo b],
                    ops := coarseKey (bancoRawKey b) :: st.ops } := by
        simp only [paso2Banco]
        rw [if_neg hk]
      rw [hstep]
      have hcore1 :
          (∀ r ∈ rs ++ (st.nuevos ++ [mkRecord2 familias gk grupo b]),
            coarseKey (rawKey r) ∈ coarseKey (bancoRawKey b) :: st.ops) ∧
          FreshAppend rs (st.nuevos ++ [mkRecord2 familias gk grupo b]) ∧
          (∀ n ∈ st.nuevos ++ [mkRecord2 familias gk grupo b],
            Rec2OK familias ventas banco rs n) := by
        refine ⟨?_, ⟨?_, ?_⟩, ?_⟩
        · intro r hr
          rcases List.mem_append.mp hr with hr | hr
          · exact List.mem_cons_of_mem _ (hops r (List.mem_append_left _ hr))
          · rcases List.mem_append.mp hr with hr | hr
            · exact List.mem_cons_of_mem _ (hops r (List.mem_append_right _ hr))
            · rcases List.mem_singleton.mp hr with rfl
              exact List.mem_cons_self _ _
        · intro n hn r hr
          rcases List.mem_append.mp hn with hn | hn
          · exact hfresh1 n hn r hr
          · rcases List.mem_singleton.mp hn with rfl
            intro heq
            apply hk
            have h2 : coarseKey (bancoRawKey b) = coarseKey (rawKey r) :=
              congrArg coarseKey heq
            rw [h2]
            exact hops r (List.mem_append_left _ hr)
        · refine List.pairwise_append.mpr ⟨hfresh2, List.pairwise_singleton _ _, ?_⟩
          intro a ha c hc
          rcases List.mem_singleton.mp hc with rfl
          intro heq
          apply hk
          have h2 : coarseKey (rawKey a) = coarseKey (bancoRawKey b) :=
            congrArg coarseKey heq
          rw [← h2]
          exact hops a (List.mem_append_right _ ha)
        · intro n hn
          rcases List.mem_append.mp hn with hn | hn
          · exact hrec n hn
          · rcases List.mem_singleton.mp hn with rfl
            obtain ⟨hbB, hbops, hbf, hbm, hbfam⟩ := hPB
            refine ⟨rfl, gk, ?_, ?_, ?_, rfl, ?_, b, hbB, hbops, hbf, ?_, hbfam, rfl, rfl, rfl⟩
            · rw [← hgr]; exact hlen
            · rw [← hgr]; rfl
            · rw [← hgr]; rfl
            · intro f hf
              rcases List.mem_map.mp hf with ⟨v, hvg, hvf⟩
              rw [← hvf]
              refine vv2_factura_fresh familias ventas rs v ?_
              rw [hgr] at hvg
              exact (List.mem_filter.mp hvg).1
            · rw [← hgr]; exact hbm
      have hcoinc1 : ∀ b' ∈ coinc,
          coarseKey (bancoRawKey b') ∈ coarseKey (bancoRawKey b) :: st.ops ∨
          (b' ∈ banco ∧ coarseKey (bancoRawKey b') ∉ opsMatcheadas rs ∧
           b'.fecha = gk.1 ∧ b'.monto = (grupo.map (·.monto)).sum ∧
           _obtener_familia_por_persona familias (some b'.nombre) = gk.2.2) := by
        intro b' hb'
        rcases hcoinc b' (List.mem_cons_of_mem _ hb') with h | h
        · exact Or.inl (List.mem_cons_of_mem _ h)
        · exact Or.inr h
      have hres := ih
        { st with nuevos := st.nuevos ++ [mkRecord2 familias gk grupo b],
                  ops := coarseKey (bancoRawKey b) :: st.ops } hcore1 hcoinc1
      refine ⟨hres.1, hres.2.1, hres.2.2.1, ?_, ?_⟩
      · intro k hk'
        exact hres.2.2.2.1 _ (List.mem_cons_of_mem _ hk')
      · intro b' hb'
        rcases List.mem_cons.mp hb' with rfl | hb'
        · exact hres.2.2.2.1 _ (List.mem_cons_self _ _)
        · exact hres.2.2.2.2 b' hb'

theorem paso2Grupo_inv (familias : List FamiliaRow) (ventas : List VentaRow)
    (banco : List BancoRow) (rs : List Record)
    (g : (Int × String × String) × List VentaValida)
    (hg : g ∈ gruposDe (ventasValidas2 familias ventas rs))
    (st : St2) (h : Inv2 familias ventas banco rs st) :
    Inv2 familias ventas banco rs (paso2Grupo familias (bancoDisponible banco rs) st g) := by
  obtain ⟨hops, hfresh, hrec, hmask⟩ := h
  have hgr := gruposDe_mem _ g hg
  by_cases herr : st.errored = true
  · have hstep : paso2Grupo familias (bancoDisponible banco rs) st g = st := by
      simp only [paso2Grupo]
      rw [if_pos herr]
    rw [hstep]
    exact ⟨hops, hfresh, hrec, hmask⟩
  by_cases hlen : g.2.length < 2
  · have hstep : paso2Grupo familias (bancoDisponible banco rs) st g = st := by
      simp only [paso2Grupo]
      rw [if_neg herr, if_pos hlen]
    rw [hstep]
    exact ⟨hops, hfresh, hrec, hmask⟩
  have hlen2 : 2 ≤ g.2.length := Nat.le_of_not_lt hlen
  by_cases hcand : (maskFilter (bancoDisponible banco rs)
      ((bancoDisponible banco rs).map
        (fun b => b.fecha == g.1.1 && b.monto == (g.2.map (·.monto)).sum))).length > 0
  · have hstep : paso2Grupo familias (bancoDisponible banco rs) st g =
        (maskFilter (bancoDisponible banco rs)
          ((bancoDisponible banco rs).map
            (fun b => b.fecha == g.1.1 && b.monto == (g.2.map (·.monto)).sum &&
              decide (_obtener_familia_por_persona familias (some b.nombre) = g.1.2.2)))).foldl
          (paso2Banco familias g.1 g.2)
          { st with mask := some ((bancoDisponible banco rs).map
              (fun b => b.fecha == g.1.1 && b.monto == (g.2.map (·.monto)).sum &&
                decide (_obtener_familia_por_persona familias (some b.nombre) = g.1.2.2))) } := by
      simp only [paso2Grupo]
      rw [if_neg herr, if_neg hlen, if_pos hcand]
    rw [hstep]
    have hcoinc : ∀ b ∈ maskFilter (bancoDisponible banco rs)
        ((bancoDisponible banco rs).map
          (fun b => b.fecha == g.1.1 && b.monto == (g.2.map (·.monto)).sum &&
            decide (_obtener_familia_por_persona familias (some b.nombre) = g.1.2.2))),
        coarseKey (bancoRawKey b) ∈
          ({ st with mask := some ((bancoDisponible banco rs).map
              (fun b => b.fecha == g.1.1 && b.monto == (g.2.map (·.monto)).sum &&
                decide (_obtener_familia_por_persona familias (some b.nombre) = g.1.2.2))) } : St2).ops ∨
        (b ∈ banco ∧ coarseKey (bancoRawKey b) ∉ opsMatcheadas rs ∧
         b.fecha = g.1.1 ∧ b.monto = (g.2.map (·.monto)).sum ∧
         _obtener_familia_por_persona familias (some b.nombre) = g.1.2.2) := by
      intro b hb
      rcases mem_maskFilter_map _ b _ hb with ⟨hbd, hpred⟩
      rcases mem_bancoDisponible banco rs b hbd with ⟨hbB, hbops⟩
      simp only [Bool.and_eq_true, beq_iff_eq, decide_eq_true_eq] at hpred
      exact Or.inr ⟨hbB, hbops, hpred.1.1, hpred.1.2, hpred.2⟩
    have hres := paso2Banco_fold familias ventas banco rs g.1 g.2 hgr hlen2
      (maskFilter (bancoDisponible banco rs)
        ((bancoDisponible banco rs).map
          (fun b => b.fecha == g.1.1 && b.monto == (g.2.map (·.monto)).sum &&
            decide (_obtener_familia_por_persona familias (some b.nombre) = g.1.2.2))))
      { st with mask := some ((bancoDisponible banco rs).map
          (fun b => b.fecha == g.1.1 && b.monto == (g.2.map (·.monto)).sum &&
            decide (_obtener_familia_por_persona familias (some b.nombre) = g.1.2.2))) }
      ⟨hops, hfresh, hrec⟩ hcoinc
    refine ⟨hres.1.1, hres.1.2.1, hres.1.2.2, ?_⟩
    intro m' hm' b hb
    rw [hres.2.1] at hm'
    injection hm' with hm'
    rw [← hm'] at hb
    exact hres.2.2.2.2 b hb
  · cases hm : st.mask with
    | none =>
      have hstep : paso2Grupo familias (bancoDisponible banco rs) st g =
          { st with errored := true } := by
        simp only [paso2Grupo]
        rw [if_neg herr, if_neg hlen, if_neg hcand, hm]
      rw [hstep]
      exact ⟨hops, hfresh, hrec, fun m' hm' b hb => hmask m' hm' b hb⟩
    | some m =>
      have hstep : paso2Grupo familias (bancoDisponible banco rs) st g =
          (maskFilter (bancoDisponible banco rs) m).foldl (paso2Banco familias g.1 g.2) st := by
        simp only [paso2Grupo]
        rw [if_neg herr, if_neg hlen, if_neg hcand, hm]
      rw [hstep]
      have hcoinc : ∀ b ∈ maskFilter (bancoDisponible banco rs) m,
          coarseKey (bancoRawKey b) ∈ st.ops ∨
          (b ∈ banco ∧ coarseKey (bancoRawKey b) ∉ opsMatcheadas rs ∧
           b.fecha = g.1.1 ∧ b.monto = (g.2.map (·.monto)).sum ∧
           _obtener_familia_por_persona familias (some b.nombre) = g.1.2.2) :=
        fun b hb => Or.inl (hmask m hm b hb)
      have hres := paso2Banco_fold familias ventas banco rs g.1 g.2 hgr hlen2
        (maskFilter (bancoDisponible banco rs) m) st ⟨hops, hfresh, hrec⟩ hcoinc
      refine ⟨hres.1.1, hres.1.2.1, hres.1.2.2, ?_⟩
      intro m' hm' b hb
      rw [hres.2.1, hm] at hm'
      injection hm' with hm'
      rw [← hm'] at hb
      exact hres.2.2.2.2 b hb

theorem matcheo2_spec (familias : List FamiliaRow) (ventas : List VentaRow)
    (banco : List BancoRow) (rs rs' : List Record)
    (h : matcheo_multifacturas_misma_familia_dia_caja familias ventas banco rs = some rs') :
    ∃ ns, rs' = rs ++ ns ∧ FreshAppend rs ns ∧
      ∀ n ∈ ns, Rec2OK familias ventas banco rs n := by
  have hinv := foldl_preserva (Inv2 familias ventas banco rs)
    (paso2Grupo familias (bancoDisponible banco rs))
    (gruposDe (ventasValidas2 familias ventas rs))
    (fun s g hg hs => paso2Grupo_inv familias ventas banco rs g hg s hs)
    { mask := none, ops := opsMatcheadas rs, nuevos := [], errored := false }
    ⟨by
      intro r hr
      rw [List.append_nil] at hr
      exact List.mem_map_of_mem _ hr,
     ⟨fun n hn => absurd hn (List.not_mem_nil n), List.Pairwise.nil⟩,
     fun n hn => absurd hn (List.not_mem_nil n),
     fun m hm => by cases hm⟩
  simp only [matcheo_multifacturas_misma_familia_dia_caja] at h
  by_cases herr : ((gruposDe (ventasValidas2 familias ventas rs)).foldl
      (paso2Grupo familias (bancoDisponible banco rs))
      { mask := none, ops := opsMatcheadas rs, nuevos := [], errored := false }).errored = true
  · rw [if_pos herr] at h
    cases h
  · rw [if_neg herr] at h
    injection h with h
    exact ⟨_, h.symm, hinv.2.1, hinv.2.2.1⟩

/-- Claim C4.  Every record appended by pass 2 is a MULTI_FACTURAS record
referencing the full group (at least two invoices sharing date, till and
family code, none referenced by a previously existing Match Record), and
links a bank operation with exactly the date of the group, amount exactly
the sum of the group, payer resolving to the family code of the group and a key not
consumed before the pass. -/
theorem C4_grouped_match_record_sound (familias : List FamiliaRow) (ventas : List VentaRow)
    (banco : List BancoRow) (rs rs' : List Record)
    (h : matcheo_multifacturas_misma_familia_dia_caja familias ventas banco rs = some rs')
    (r : Record) (hr : r ∈ rs'.drop rs.length) :
    Rec2OK familias ventas banco rs r := by
  obtain ⟨ns, rfl, _, hrec⟩ := matcheo2_spec familias ventas banco rs rs' h
  rw [List.drop_left] at hr
  exact hrec r hr

/-- Witness for C4: the soundness statement applied to a concrete pass-2
run that emits one grouped record. -/
theorem C4_grouped_match_witness :
    matcheo_multifacturas_misma_familia_dia_caja famsC4 ventasC4 bancoC4 [] =
      some [{ tipoMatch := "MULTI_FACTURAS", fechaBanco := 1, nombreBanco := "JUAN PEREZ",
              montoBanco := 30000, facturas := ["A", "B"], montoFactura := 30000,
              familia := "F1", codigoFamilia := "F1", numeroCaja := "1" }] ∧
    Rec2OK famsC4 ventasC4 bancoC4 []
      { tipoMatch := "MULTI_FACTURAS", fechaBanco := 1, nombreBanco := "JUAN PEREZ",
        montoBanco := 30000, facturas := ["A", "B"], montoFactura := 30000,
        familia := "F1", codigoFamilia := "F1", numeroCaja := "1" } :=
  ⟨by decide,
   C4_grouped_match_record_sound famsC4 ventasC4 bancoC4 []
     [{ tipoMatch := "MULTI_FACTURAS", fechaBanco := 1, nombreBanco := "JUAN PEREZ",
        montoBanco := 30000, facturas := ["A", "B"], montoFactura := 30000,
        familia := "F1", codigoFamilia := "F1", numeroCaja := "1" }] (by decide)
     { tipoMatch := "MULTI_FACTURAS", fechaBanco := 1, nombreBanco := "JUAN PEREZ",
       montoBanco := 30000, facturas := ["A", "B"], montoFactura := 30000,
       familia := "F1", codigoFamilia := "F1", numeroCaja := "1" } (by decide)⟩

theorem paso4_inv (familias : List FamiliaRow) (vv : List VentaValida) (rs : List Record)
    (st : St4) (b : BancoRow) (h : Inv4 rs st) : Inv4 rs (paso4 familias vv st b) := by
  obtain ⟨hops, ⟨hfresh1, hfresh2⟩, htipos⟩ := h
  simp only [paso4]
  by_cases herr : st.errored = true
  · rw [if_pos herr]; exact ⟨hops, ⟨hfresh1, hfresh2⟩, htipos⟩
  rw [if_neg herr]
  by_cases hk : coarseKey (bancoRawKey b) ∈ st.ops
  · rw [if_pos hk]; exact ⟨hops, ⟨hfresh1, hfresh2⟩, htipos⟩
  rw [if_neg hk]
  cases hcand : candidatos4 vv st.usado (_obtener_familia_por_persona familias (some b.nombre)) b with
  | none => exact ⟨hops, ⟨hfresh1, hfresh2⟩, htipos⟩
  | some cands =>
    dsimp only
    by_cases hlen : cands.length < 2
    · rw [if_pos hlen]; exact ⟨hops, ⟨hfresh1, hfresh2⟩, htipos⟩
    rw [if_neg hlen]
    cases hbus : buscaCombo ((ordenarCandidatos b cands).take 15) b.monto
        (List.range' 2 (min 8 ((ordenarCandidatos b cands).take 15).length - 1)) with
    | none => exact ⟨hops, ⟨hfresh1, hfresh2⟩, htipos⟩
    | some idxs =>
      dsimp only
      cases hmark : marcarUsado vv st.usado idxs with
      | none => exact ⟨hops, ⟨hfresh1, hfresh2⟩, htipos⟩
      | some usado' =>
        dsimp only
        refine ⟨?_, ⟨?_, ?_⟩, ?_⟩
        · intro r hr
          rcases List.mem_append.mp hr with hr | hr
          · exact List.mem_cons_of_mem _ (hops r (List.mem_append_left _ hr))
          · rcases List.mem_append.mp hr with hr | hr
            · exact List.mem_cons_of_mem _ (hops r (List.mem_append_right _ hr))
            · rcases List.mem_singleton.mp hr with rfl
              exact List.mem_cons_self _ _
        · intro n hn r hr
          rcases List.mem_append.mp hn with hn | hn
          · exact hfresh1 n hn r hr
          · rcases List.mem_singleton.mp hn with rfl
            intro heq
            apply hk
            have h2 : coarseKey (bancoRawKey b) = coarseKey (rawKey r) :=
              congrArg coarseKey heq
            rw [h2]
            exact hops r (List.mem_append_left _ hr)
        · refine List.pairwise_append.mpr ⟨hfresh2, List.pairwise_singleton _ _, ?_⟩
          intro a ha c hc
          rcases List.mem_singleton.mp hc with rfl
          intro heq
          apply hk
          have h2 : coarseKey (rawKey a) = coarseKey (bancoRawKey b) :=
            congrArg coarseKey heq
          rw [← h2]
          exact hops a (List.mem_append_right _ ha)
        · intro n hn
          rcases List.mem_append.mp hn with hn | hn
          · exact htipos n hn
          · rcases List.mem_singleton.mp hn with rfl
            rfl

theorem matcheo4_spec (familias : List FamiliaRow) (ventas : List VentaRow)
    (banco : List BancoRow) (rs rs' : List Record)
    (h : matcheo_multifacturas_misma_familia_mismo_dia_caja familias ventas banco rs = some rs') :
    ∃ ns, rs' = rs ++ ns ∧ FreshAppend rs ns ∧
      ∀ n ∈ ns, n.tipoMatch = "MULTI_FACTURAS_FAMILIA_BANCO_PRIMERO" := by
  have hinv := foldl_preserva (Inv4 rs) (paso4 familias (ventasValidas4 familias ventas)) banco
    (fun s a _ hs => paso4_inv familias (ventasValidas4 familias ventas) rs s a hs)
    { usado := [], ops := opsMatcheadas rs, nuevos := [], errored := false }
    ⟨by
      intro r hr
      rw [List.append_nil] at hr
      exact List.mem_map_of_mem _ hr,
     ⟨fun n hn => absurd hn (List.not_mem_nil n), List.Pairwise.nil⟩,
     fun n hn => absurd hn (List.not_mem_nil n)⟩
  simp only [matcheo_multifacturas_misma_familia_mismo_dia_caja] at h
  by_cases herr : (banco.foldl (paso4 familias (ventasValidas4 familias ventas))
      { usado := [], ops := opsMatcheadas rs, nuevos := [], errored := false }).errored = true
  · rw [if_pos herr] at h
    cases h
  · rw [if_neg herr] at h
    injection h with h
    exact ⟨_, h.symm, hinv.2.1, hinv.2.2⟩

theorem matcheo1_tipos (familias : List FamiliaRow) (ventas : List VentaRow)
    (banco : List BancoRow) :
    ∀ r ∈ matcheo_exacto familias ventas banco, r.tipoMatch = "EXACTO" := by
  intro r hr
  rcases List.mem_flatMap.mp hr with ⟨venta, _, hv⟩
  cases hf : venta.fecha <;> cases hn : venta.nombreCliente <;> cases hm : venta.monto <;>
      rw [hf, hn, hm] at hv
  all_goals
    first
      | exact absurd hv (List.not_mem_nil r)
      | (rcases List.mem_map.mp hv with ⟨b, _, hb⟩
         rw [← hb])

theorem claveUnica_exacto (rs : List Record) (h : ∀ r ∈ rs, r.tipoMatch = "EXACTO") :
    ClaveUnicaSalvoExacto rs := by
  refine List.pairwise_of_forall_mem_list ?_
  intro a ha b hb _
  exact ⟨h a ha, h b hb⟩

theorem claveUnica_append (rs ns : List Record) (hQ : ClaveUnicaSalvoExacto rs)
    (hF : FreshAppend rs ns) : ClaveUnicaSalvoExacto (rs ++ ns) := by
  refine List.pairwise_append.mpr ⟨hQ, ?_, ?_⟩
  · exact hF.2.imp (fun hne heq => absurd heq hne)
  · intro a ha b hb heq
    exact absurd heq.symm (hF.1 b hb a ha)

/-- Claim C1, amended.  Comparing transaction keys by exact value (date,
payer name as stored, amount): across any successful run of the four
passes, a key is consumed by at most one Match Record of passes 2 to 4,
and never by both a pass-1 record and a later record; only pass 1 can
emit several records with one key.  With token-normalized names the
uniqueness would fail even between later passes, because passes 2 and 4
key on the upper-cased name while pass 3 keys on the raw name. -/
theorem C1_identity_key_unique_outside_pass1 (familias : List FamiliaRow)
    (ventas : List VentaRow) (banco : List BancoRow) (rs : List Record)
    (h : runAll familias ventas banco = some rs) : ClaveUnicaSalvoExacto rs := by
  simp only [runAll] at h
  cases h2 : matcheo_multifacturas_misma_familia_dia_caja familias ventas banco
      (matcheo_exacto familias ventas banco) with
  | none => rw [h2] at h; cases h
  | some r2 =>
    rw [h2] at h
    dsimp only at h
    obtain ⟨ns2, hr2, hF2, _⟩ :=
      matcheo2_spec familias ventas banco (matcheo_exacto familias ventas banco) r2 h2
    obtain ⟨ns3, hr3, hF3, _⟩ := matcheo3_spec familias ventas banco r2
    rw [hr3] at h
    obtain ⟨ns4, hr4, hF4, _⟩ := matcheo4_spec familias ventas banco (r2 ++ ns3) rs h
    have hQ1 : ClaveUnicaSalvoExacto (matcheo_exacto familias ventas banco) :=
      claveUnica_exacto _ (matcheo1_tipos familias ventas banco)
    have hQ2 : ClaveUnicaSalvoExacto r2 := hr2 ▸ claveUnica_append _ _ hQ1 hF2
    have hQ3 : ClaveUnicaSalvoExacto (r2 ++ ns3) := claveUnica_append _ _ hQ2 hF3
    have hQ4 : ClaveUnicaSalvoExacto ((r2 ++ ns3) ++ ns4) := claveUnica_append _ _ hQ3 hF4
    rw [hr4]
    exact hQ4

/-- Witness for C1: the amended uniqueness applied to a concrete
successful run of the four passes. -/
theorem C1_identity_key_witness :
    runAll famsW1 ventasW1 bancoC1 =
      some [{ tipoMatch := "EXACTO", fechaBanco := 1, nombreBanco := "JUAN", montoBanco := 100,
              facturas := ["A"], montoFactura := 100, familia := "F1", codigoFamilia := "F1",
              numeroCaja := "1" }] ∧
    ClaveUnicaSalvoExacto
      [{ tipoMatch := "EXACTO", fechaBanco := 1, nombreBanco := "JUAN", montoBanco := 100,
         facturas := ["A"], montoFactura := 100, familia := "F1", codigoFamilia := "F1",
         numeroCaja := "1" }] :=
  ⟨by decide,
   C1_identity_key_unique_outside_pass1 famsW1 ventasW1 bancoC1
     [{ tipoMatch := "EXACTO", fechaBanco := 1, nombreBanco := "JUAN", montoBanco := 100,
        facturas := ["A"], montoFactura := 100, familia := "F1", codigoFamilia := "F1",
        numeroCaja := "1" }] (by decide)⟩

/-- Claim C7, amended.  Only pass 2 excludes previously referenced
invoices: in any successful run of the four passes, a MULTI_FACTURAS
record never references an invoice number of an earlier EXACTO record.
Pass 1 may attach one invoice to several records, pass 3 scans all
invoices regardless of any consumption state, one pass-2 group may be
linked to several coinciding transactions, and pass 4 flags the positions
of the sorted candidate frame rather than the matched rows, so those
passes give no such exclusion. -/
theorem C7_invoice_exclusion_pass2 (familias : List FamiliaRow)
    (ventas : List VentaRow) (banco : List BancoRow) (rs : List Record)
    (h : runAll familias ventas banco = some rs) : ExclusionFacturasPase2 rs := by
  simp only [runAll] at h
  cases h2 : matcheo_multifacturas_misma_familia_dia_caja familias ventas banco
      (matcheo_exacto familias ventas banco) with
  | none => rw [h2] at h; cases h
  | some r2 =>
    rw [h2] at h
    dsimp only at h
    obtain ⟨ns2, hr2, _, hrec2⟩ :=
      matcheo2_spec familias ventas banco (matcheo_exacto familias ventas banco) r2 h2
    obtain ⟨ns3, hr3, _, hrec3⟩ := matcheo3_spec familias ventas banco r2
    rw [hr3] at h
    obtain ⟨ns4, hr4, _, htipos4⟩ := matcheo4_spec familias ventas banco (r2 ++ ns3) rs h
    have htipos1 := matcheo1_tipos familias ventas banco
    have hP2 : ExclusionFacturasPase2 r2 := by
      rw [hr2]
      refine List.pairwise_append.mpr ⟨?_, ?_, ?_⟩
      · refine List.pairwise_of_forall_mem_list ?_
        intro a _ b hb _ hbm
        rw [htipos1 b hb] at hbm
        exact absurd hbm (by decide)
      · refine List.pairwise_of_forall_mem_list ?_
        intro a ha b _ ham _
        obtain ⟨htipo, _⟩ := hrec2 a ha
        rw [htipo] at ham
        exact absurd ham (by decide)
      · intro a ha b hb _ _ f hf hfa
        obtain ⟨_, _, _, _, _, _, hfree, _⟩ := hrec2 b hb
        exact hfree f hf (List.mem_flatMap.mpr ⟨a, ha, hfa⟩)
    have hP3 : ExclusionFacturasPase2 (r2 ++ ns3) := by
      refine List.pairwise_append.mpr ⟨hP2, ?_, ?_⟩
      · refine List.pairwise_of_forall_mem_list ?_
        intro a _ b hb _ hbm
        rw [(hrec3 b hb).1] at hbm
        exact absurd hbm (by decide)
      · intro a _ b hb _ hbm
        rw [(hrec3 b hb).1] at hbm
        exact absurd hbm (by decide)
    have hP4 : ExclusionFacturasPase2 ((r2 ++ ns3) ++ ns4) := by
      refine List.pairwise_append.mpr ⟨hP3, ?_, ?_⟩
      · refine List.pairwise_of_forall_mem_list ?_
        intro a _ b hb _ hbm
        rw [htipos4 b hb] at hbm
        exact absurd hbm (by decide)
      · intro a _ b hb _ hbm
        rw [htipos4 b hb] at hbm
        exact absurd hbm (by decide)
    rw [hr4]
    exact hP4

/-- Witness for C7: the pass-2 exclusion applied to a concrete run whose
results hold one EXACTO record and one MULTI_FACTURAS record. -/
theorem C7_invoice_exclusion_witness :
    runAll famsC4 ventasW7 bancoW7 =
      some [{ tipoMatch := "EXACTO", fechaBanco := 1, nombreBanco := "JUAN PEREZ",
              montoBanco := 50000, facturas := ["C"], montoFactura := 50000,
              familia := "F1", codigoFamilia := "F1", numeroCaja := "1" },
            { tipoMatch := "MULTI_FACTURAS", fechaBanco := 1, nombreBanco := "JUAN PEREZ",
              montoBanco := 30000, facturas := ["A", "B"], montoFactura := 30000,
              familia := "F1", codigoFamilia := "F1", numeroCaja := "1" }] ∧
    ExclusionFacturasPase2
      [{ tipoMatch := "EXACTO", fechaBanco := 1, nombreBanco := "JUAN PEREZ",
         montoBanco := 50000, facturas := ["C"], montoFactura := 50000,
         familia := "F1", codigoFamilia := "F1", numeroCaja := "1" },
       { tipoMatch := "MULTI_FACTURAS", fechaBanco := 1, nombreBanco := "JUAN PEREZ",
         montoBanco := 30000, facturas := ["A", "B"], montoFactura := 30000,
         familia := "F1", codigoFamilia := "F1", numeroCaja := "1" }] :=
  ⟨by decide,
   C7_invoice_exclusion_pass2 famsC4 ventasW7 bancoW7
     [{ tipoMatch := "EXACTO", fechaBanco := 1, nombreBanco := "JUAN PEREZ",
        montoBanco := 50000, facturas := ["C"], montoFactura := 50000,
        familia := "F1", codigoFamilia := "F1", numeroCaja := "1" },
      { tipoMatch := "MULTI_FACTURAS", fechaBanco := 1, nombreBanco := "JUAN PEREZ",
        montoBanco := 30000, facturas := ["A", "B"], montoFactura := 30000,
        familia := "F1", codigoFamilia := "F1", numeroCaja := "1" }] (by decide)⟩

theorem tokensAux_allws : ∀ ws : List Char, (∀ c ∈ ws, isWsChar c = true) →
    ∀ acc, tokensAux ws acc = if acc.isEmpty then [] else [String.mk acc.reverse] := by
  intro ws
  induction ws with
  | nil => intro _ acc; rfl
  | cons c cs ih =>
    intro hws acc
    simp only [tokensAux]
    rw [if_pos (hws c (List.mem_cons_self _ _))]
    have ih' := ih (fun d hd => hws d (List.mem_cons_of_mem _ hd))
    by_cases ha : acc.isEmpty
    · rw [if_pos ha, if_pos ha, ih' []]
      rfl
    · rw [if_neg ha, if_neg ha, ih' []]
      rfl

theorem tokensAux_append_allws (ws : List Char) (hws : ∀ c ∈ ws, isWsChar c = true) :
    ∀ (l acc : List Char), tokensAux (l ++ ws) acc = tokensAux l acc := by
  intro l
  induction l with
  | nil =>
    intro acc
    rw [List.nil_append, tokensAux_allws ws hws acc]
    rfl
  | cons c cs ih =>
    intro acc
    rw [List.cons_append]
    simp only [tokensAux]
    by_cases hc : isWsChar c = true
    · rw [if_pos hc, if_pos hc]
      by_cases ha : acc.isEmpty
      · rw [if_pos ha, if_pos ha, ih]
      · rw [if_neg ha, if_neg ha, ih]
    · rw [if_neg hc, if_neg hc, ih]

theorem tokensAux_ws_front (l : List Char) :
    ∀ ws : List Char, (∀ c ∈ ws, isWsChar c = true) →
      tokensAux (ws ++ l) [] = tokensAux l [] := by
  intro ws
  induction ws with
  | nil => intro _; rfl
  | cons c cs ih =>
    intro hws
    rw [List.cons_append]
    simp only [tokensAux]
    rw [if_pos (hws c (List.mem_cons_self _ _))]
    have h0 : ([] : List Char).isEmpty = true := rfl
    rw [if_pos h0]
    exact ih (fun d hd => hws d (List.mem_cons_of_mem _ hd))

theorem stripWs_decomp (l : List Char) :
    ∃ p s, l = p ++ (stripWs l ++ s) ∧ (∀ c ∈ p, isWsChar c = true) ∧
      (∀ c ∈ s, isWsChar c = true) := by
  refine ⟨l.takeWhile isWsChar,
          ((l.dropWhile isWsChar).reverse.takeWhile isWsChar).reverse, ?_, ?_, ?_⟩
  · have h2 : (l.dropWhile isWsChar).reverse.takeWhile isWsChar ++
        (l.dropWhile isWsChar).reverse.dropWhile isWsChar = (l.dropWhile isWsChar).reverse :=
      List.takeWhile_append_dropWhile isWsChar (l.dropWhile isWsChar).reverse
    have h3 := congrArg List.reverse h2
    rw [List.reverse_append, List.reverse_reverse] at h3
    have h4 : stripWs l ++ ((l.dropWhile isWsChar).reverse.takeWhile isWsChar).reverse =
        l.dropWhile isWsChar := h3
    rw [h4]
    exact (List.takeWhile_append_dropWhile isWsChar l).symm
  · intro c hc
    exact List.mem_takeWhile_imp hc
  · intro c hc
    exact List.mem_takeWhile_imp (List.mem_reverse.mp hc)

theorem pyTokens_strip_flatMap (f : Char → List Char)
    (hf : ∀ c, isWsChar c = true → ∀ d ∈ f c, isWsChar d = true) (m : List Char) :
    pyTokens ((stripWs m).flatMap f) = pyTokens (m.flatMap f) := by
  obtain ⟨p, s, hdecomp, hp, hs⟩ := stripWs_decomp m
  have hflat : m.flatMap f = p.flatMap f ++ ((stripWs m).flatMap f ++ s.flatMap f) := by
    rw [← List.flatMap_append, ← List.flatMap_append, ← hdecomp]
  rw [pyTokens, pyTokens, hflat]
  rw [tokensAux_ws_front ((stripWs m).flatMap f ++ s.flatMap f) (p.flatMap f) ?hpws]
  case hpws =>
    intro d hd
    rcases List.mem_flatMap.mp hd with ⟨c, hc, hdc⟩
    exact hf c (hp c hc) d hdc
  rw [tokensAux_append_allws (s.flatMap f) ?hsws]
  case hsws =>
    intro d hd
    rcases List.mem_flatMap.mp hd with ⟨c, hc, hdc⟩
    exact hf c (hs c hc) d hdc

theorem map_filter_flatMap (f : Char → List Char) (p : Char → Bool) (g : Char → Char)
    (l : List Char) :
    ((l.flatMap f).filter p).map g = l.flatMap (fun c => ((f c).filter p).map g) := by
  induction l with
  | nil => rfl
  | cons c cs ih =>
    rw [List.flatMap_cons, List.filter_append, List.map_append, ih, List.flatMap_cons]

theorem flatMap_map_comp (g : Char → Char) (f : Char → List Char) (l : List Char) :
    (l.map g).flatMap f = l.flatMap (fun c => f (g c)) := by
  induction l with
  | nil => rfl
  | cons c cs ih => rw [List.map_cons, List.flatMap_cons, List.flatMap_cons, ih]

theorem norm_eq_core (t : String) :
    _normalize_to_token_set (some t) = (pyTokens (t.data.flatMap charNorm)).toFinset := by
  by_cases ht : t = ""
  · subst ht
    rfl
  · simp only [_normalize_to_token_set]
    rw [if_neg ht]
    rw [map_filter_flatMap]
    rw [pyTokens_strip_flatMap _ ?hwsf]
    case hwsf =>
      intro c hc d hd
      have hset : ((c = ' ' ∨ c = '\t') ∨ c = '\n') ∨ c = '\r' := by
        simpa [isWsChar, Bool.or_eq_true] using hc
      rcases hset with ((rfl | rfl) | rfl) | rfl
      · rw [show ((nfkdChar ' ').filter (fun d => !isCombining d)).map subNonAlnum = [' ']
            from by decide] at hd
        rcases List.mem_singleton.mp hd with rfl
        decide
      · rw [show ((nfkdChar '\t').filter (fun d => !isCombining d)).map subNonAlnum = ['\t']
            from by decide] at hd
        rcases List.mem_singleton.mp hd with rfl
        decide
      · rw [show ((nfkdChar '\n').filter (fun d => !isCombining d)).map subNonAlnum = ['\n']
            from by decide] at hd
        rcases List.mem_singleton.mp hd with rfl
        decide
      · rw [show ((nfkdChar '\r').filter (fun d => !isCombining d)).map subNonAlnum = ['\r']
            from by decide] at hd
        rcases List.mem_singleton.mp hd with rfl
        decide
    rw [flatMap_map_comp]
    rfl

theorem flatMap_of_map_eq {α β : Type _} (f : α → List β) :
    ∀ l₁ l₂ : List α, l₁.map f = l₂.map f → l₁.flatMap f = l₂.flatMap f := by
  intro l₁
  induction l₁ with
  | nil =>
    intro l₂ h
    cases l₂ with
    | nil => rfl
    | cons y ys => cases h
  | cons x xs ih =>
    intro l₂ h
    cases l₂ with
    | nil => cases h
    | cons y ys =>
      rw [List.map_cons, List.map_cons] at h
      injection h with h1 h2
      rw [List.flatMap_cons, List.flatMap_cons, h1, ih ys h2]

/-- Claim C9, amended.  Names whose characters have, position by
position, the same canonical form (equal letters up to accents and case;
punctuation and whitespace both canonicalize to a space) normalize to
equal token sets, and absent or empty input yields the empty set.  The
converse of the last part fails: a punctuation-only input also yields the
empty set (see the counterexample). -/
theorem C9_normalizer_equivalence (a b : String) (h : nombresEquivalentes a b) :
    _normalize_to_token_set (some a) = _normalize_to_token_set (some b) ∧
    _normalize_to_token_set none = ∅ ∧
    _normalize_to_token_set (some "") = ∅ := by
  refine ⟨?_, rfl, rfl⟩
  rw [norm_eq_core a, norm_eq_core b, flatMap_of_map_eq charNorm a.data b.data h]

/-- Witness for C9: two names differing in accents, case and a hyphen
for a space. -/
theorem C9_normalizer_witness :
    nombresEquivalentes "José Pérez" "JOSE-PEREZ" ∧
    (_normalize_to_token_set (some "José Pérez") = _normalize_to_token_set (some "JOSE-PEREZ") ∧
     _normalize_to_token_set none = ∅ ∧
     _normalize_to_token_set (some "") = ∅) :=
  ⟨by unfold nombresEquivalentes; decide,
   C9_normalizer_equivalence "José Pérez" "JOSE-PEREZ" (by unfold nombresEquivalentes; decide)⟩

theorem mk_reverse_props (acc : List Char) (hacc : ∀ c ∈ acc, isWsChar c = false)
    (ha : ¬acc.isEmpty = true) :
    String.mk acc.reverse ≠ "" ∧
    ∀ c ∈ (String.mk acc.reverse).data, c ∈ acc ∧ isWsChar c = false := by
  refine ⟨?_, ?_⟩
  · intro hemp
    apply ha
    have hrev : acc.reverse = [] := congrArg String.data hemp
    have hnil : acc = [] := by simpa using congrArg List.reverse hrev
    rw [hnil]
    rfl
  · intro c hc
    have hc2 := List.mem_reverse.mp hc
    exact ⟨hc2, hacc c hc2⟩

theorem pyTokens_mem_props : ∀ (l acc : List Char), (∀ c ∈ acc, isWsChar c = false) →
    ∀ s ∈ tokensAux l acc, s ≠ "" ∧ ∀ c ∈ s.data, (c ∈ l ∨ c ∈ acc) ∧ isWsChar c = false := by
  intro l
  induction l with
  | nil =>
    intro acc hacc s hs
    rw [tokensAux] at hs
    by_cases ha : acc.isEmpty = true
    · rw [if_pos ha] at hs; cases hs
    · rw [if_neg ha] at hs
      rcases List.mem_singleton.mp hs with rfl
      obtain ⟨h1, h2⟩ := mk_reverse_props acc hacc ha
      exact ⟨h1, fun c hc => ⟨Or.inr (h2 c hc).1, (h2 c hc).2⟩⟩
  | cons d ds ih =>
    intro acc hacc s hs
    rw [tokensAux] at hs
    by_cases hd : isWsChar d = true
    · rw [if_pos hd] at hs
      by_cases ha : acc.isEmpty = true
      · rw [if_pos ha] at hs
        obtain ⟨h1, h2⟩ := ih [] (fun c hc => absurd hc (List.not_mem_nil c)) s hs
        refine ⟨h1, fun c hc => ?_⟩
        obtain ⟨hm, hw⟩ := h2 c hc
        rcases hm with hm | hm
        · exact ⟨Or.inl (List.mem_cons_of_mem _ hm), hw⟩
        · exact absurd hm (List.not_mem_nil c)
      · rw [if_neg ha] at hs
        rcases List.mem_cons.mp hs with rfl | hs
        · obtain ⟨h1, h2⟩ := mk_reverse_props acc hacc ha
          exact ⟨h1, fun c hc => ⟨Or.inr (h2 c hc).1, (h2 c hc).2⟩⟩
        · obtain ⟨h1, h2⟩ := ih [] (fun c hc => absurd hc (List.not_mem_nil c)) s hs
          refine ⟨h1, fun c hc => ?_⟩
          obtain ⟨hm, hw⟩ := h2 c hc
          rcases hm with hm | hm
          · exact ⟨Or.inl (List.mem_cons_of_mem _ hm), hw⟩
          · exact absurd hm (List.not_mem_nil c)
    · rw [if_neg hd] at hs
      have hdf : isWsChar d = false := by
        simpa [Bool.not_eq_true] using hd
      obtain ⟨h1, h2⟩ := ih (d :: acc) (by
        intro c hc
        rcases List.mem_cons.mp hc with rfl | hc
        · exact hdf
        · exact hacc c hc) s hs
      refine ⟨h1, fun c hc => ?_⟩
      obtain ⟨hm, hw⟩ := h2 c hc
      rcases hm with hm | hm
      · exact ⟨Or.inl (List.mem_cons_of_mem _ hm), hw⟩
      · rcases List.mem_cons.mp hm with rfl | hm
        · exact ⟨Or.inl (List.mem_cons_self _ _), hw⟩
        · exact ⟨Or.inr hm, hw⟩

theorem tokensAux_chunk : ∀ (s m acc : List Char), (∀ c ∈ s, isWsChar c = false) →
    tokensAux (s ++ m) acc = tokensAux m (s.reverse ++ acc) := by
  intro s
  induction s with
  | nil =>
    intro m acc _
    rw [List.nil_append, List.reverse_nil, List.nil_append]
  | cons c cs ih =>
    intro m acc hs
    rw [List.cons_append]
    rw [tokensAux]
    rw [if_neg (by
      rw [hs c (List.mem_cons_self _ _)]
      exact Bool.false_ne_true)]
    rw [ih m (c :: acc) (fun d hd => hs d (List.mem_cons_of_mem _ hd))]
    rw [List.reverse_cons, List.append_assoc]
    rfl

theorem pyTokens_joinTokens : ∀ parts : List (List Char),
    (∀ p ∈ parts, p ≠ [] ∧ ∀ c ∈ p, isWsChar c = false) →
    pyTokens (joinTokens parts) = parts.map String.mk := by
  intro parts
  induction parts with
  | nil => intro _; rfl
  | cons p rest ih =>
    intro hparts
    obtain ⟨hne, hnws⟩ := hparts p (List.mem_cons_self _ _)
    have hrevne : ¬(p.reverse).isEmpty = true := by
      intro hrev
      apply hne
      have hnil : p.reverse = [] := by
        cases hp : p.reverse with
        | nil => rfl
        | cons x xs => rw [hp] at hrev; cases hrev
      simpa using congrArg List.reverse hnil
    cases rest with
    | nil =>
      have hch := tokensAux_chunk p [] [] hnws
      rw [List.append_nil, List.append_nil] at hch
      show tokensAux p [] = [String.mk p]
      rw [hch, tokensAux, if_neg hrevne, List.reverse_reverse]
    | cons q rest' =>
      have hch := tokensAux_chunk p (' ' :: joinTokens (q :: rest')) [] hnws
      rw [List.append_nil] at hch
      show tokensAux (p ++ ' ' :: joinTokens (q :: rest')) [] = _
      rw [hch]
      rw [tokensAux]
      rw [if_pos (show isWsChar ' ' = true from rfl)]
      rw [if_neg hrevne]
      rw [List.reverse_reverse]
      have ih' := ih (fun r hr => hparts r (List.mem_cons_of_mem _ hr))
      rw [show tokensAux (joinTokens (q :: rest')) [] = pyTokens (joinTokens (q :: rest')) from rfl]
      rw [ih']
      rfl

theorem mem_joinTokens : ∀ (parts : List (List Char)) (c : Char), c ∈ joinTokens parts →
    (∃ p ∈ parts, c ∈ p) ∨ c = ' ' := by
  intro parts
  induction parts with
  | nil => intro c hc; cases hc
  | cons p rest ih =>
    intro c hc
    cases rest with
    | nil => exact Or.inl ⟨p, List.mem_cons_self _ _, hc⟩
    | cons q rest' =>
      have hj : joinTokens (p :: q :: rest') = p ++ ' ' :: joinTokens (q :: rest') := rfl
      rw [hj] at hc
      rcases List.mem_append.mp hc with hc | hc
      · exact Or.inl ⟨p, List.mem_cons_self _ _, hc⟩
      · rcases List.mem_cons.mp hc with rfl | hc
        · exact Or.inr rfl
        · rcases ih c hc with ⟨r, hr, hcr⟩ | hsp
          · exact Or.inl ⟨r, List.mem_cons_of_mem _ hr, hcr⟩
          · exact Or.inr hsp

theorem alnum_toNat_le (c : Char) (h : isAlnumUpper c = true) : c.toNat ≤ 90 := by
  have hn : (65 ≤ c.toNat ∧ c.toNat ≤ 90) ∨ (48 ≤ c.toNat ∧ c.toNat ≤ 57) := by
    simpa [isAlnumUpper, Bool.or_eq_true, decide_eq_true_eq] using h
  rcases hn with ⟨_, h2⟩ | ⟨_, h2⟩
  · exact h2
  · omega

theorem pyUpper_alnum (c : Char) (h : isAlnumUpper c = true) : pyUpper c = c := by
  have hle := alnum_toNat_le c h
  rw [pyUpper]
  rw [if_neg (fun he => absurd (he ▸ hle) (by decide)),
      if_neg (fun he => absurd (he ▸ hle) (by decide)),
      if_neg (fun he => absurd (he ▸ hle) (by decide)),
      if_neg (fun he => absurd (he ▸ hle) (by decide)),
      if_neg (fun he => absurd (he ▸ hle) (by decide)),
      if_neg (fun he => absurd (he ▸ hle) (by decide)),
      if_neg (fun he => absurd (he ▸ hle) (by decide)),
      if_neg (fun hcc => absurd hle (by omega))]

theorem nfkdChar_alnum (c : Char) (h : isAlnumUpper c = true) : nfkdChar c = [c] := by
  have hle := alnum_toNat_le c h
  rw [nfkdChar]
  have hfind : accentTable.find? (fun p => p.1 = c) = none := by
    rw [List.find?_eq_none]
    intro p hp
    fin_cases hp <;>
      · intro hdec
        cases of_decide_eq_true hdec
        exact absurd hle (by decide)
  rw [hfind]

theorem isCombining_alnum (c : Char) (h : isAlnumUpper c = true) : isCombining c = false := by
  have hle := alnum_toNat_le c h
  rw [isCombining, decide_eq_false]
  intro hc
  fin_cases hc <;> exact absurd hle (by decide)

theorem charNorm_alnum (c : Char) (h : isAlnumUpper c = true) : charNorm c = [c] := by
  rw [charNorm, pyUpper_alnum c h, nfkdChar_alnum c h]
  have h1 : [c].filter (fun d => !isCombining d) = [c] := by
    rw [List.filter_cons]
    rw [isCombining_alnum c h]
    rfl
  rw [h1]
  rw [List.map_cons, List.map_nil]
  rw [subNonAlnum, if_pos (by rw [h, Bool.true_or])]

theorem charNorm_space : charNorm ' ' = [' '] := by decide

theorem charNorm_output (c d : Char) (hd : d ∈ charNorm c) :
    isAlnumUpper d = true ∨ isWsChar d = true := by
  rcases List.mem_map.mp hd with ⟨e, _, he⟩
  rw [← he, subNonAlnum]
  by_cases ha : (isAlnumUpper e || isWsChar e) = true
  · rw [if_pos ha]
    simpa [Bool.or_eq_true] using ha
  · rw [if_neg ha]
    exact Or.inr rfl

theorem flatMap_charNorm_id : ∀ m : List Char, (∀ c ∈ m, charNorm c = [c]) →
    m.flatMap charNorm = m := by
  intro m
  induction m with
  | nil => intro _; rfl
  | cons c cs ih =>
    intro h
    rw [List.flatMap_cons, h c (List.mem_cons_self _ _),
      ih (fun d hd => h d (List.mem_cons_of_mem _ hd))]
    rfl

theorem data_mk (l : List Char) : (String.mk l).data = l := rfl

theorem mk_data (s : String) : String.mk s.data = s := rfl

/-- Claim C10.  The normalizer is idempotent in the sense that
re-normalizing any textual rendering of the produced token set — the
tokens joined by single spaces, in any order and with any multiplicity —
returns exactly the same token set, and it is commutative under token
order.  (As literal code the inner call would feed a frozenset back into
a function of text; the rendering makes that composition well typed.) -/
theorem C10_normalizer_idempotent (x : Option String) (l : List String)
    (h : l.toFinset = _normalize_to_token_set x) :
    _normalize_to_token_set (some (String.mk (joinTokens (l.map String.data)))) =
      _normalize_to_token_set x ∧
    _normalize_to_token_set (some "PEREZ JUAN") = _normalize_to_token_set (some "JUAN PEREZ") := by
  refine ⟨?_, by decide⟩
  have hmem : ∀ s ∈ l, s ≠ "" ∧ ∀ c ∈ s.data, isWsChar c = false ∧ isAlnumUpper c = true := by
    intro s hsl
    have hsf : s ∈ _normalize_to_token_set x := h ▸ List.mem_toFinset.mpr hsl
    cases x with
    | none => exact absurd hsf (Finset.not_mem_empty s)
    | some t =>
      rw [norm_eq_core t] at hsf
      have hst := List.mem_toFinset.mp hsf
      obtain ⟨h1, h2⟩ := pyTokens_mem_props (t.data.flatMap charNorm) []
        (fun c hc => absurd hc (List.not_mem_nil c)) s hst
      refine ⟨h1, fun c hc => ?_⟩
      obtain ⟨hm, hw⟩ := h2 c hc
      rcases hm with hm | hm
      · rcases List.mem_flatMap.mp hm with ⟨e, _, hce⟩
        rcases charNorm_output e c hce with halnum | hws
        · exact ⟨hw, halnum⟩
        · rw [hw] at hws
          exact absurd hws (by decide)
      · exact absurd hm (List.not_mem_nil c)
  have hparts : ∀ p ∈ l.map String.data, p ≠ [] ∧ ∀ c ∈ p, isWsChar c = false := by
    intro p hp
    rcases List.mem_map.mp hp with ⟨s, hsl, rfl⟩
    obtain ⟨h1, h2⟩ := hmem s hsl
    refine ⟨?_, fun c hc => (h2 c hc).1⟩
    intro hnil
    apply h1
    cases s with
    | mk d => cases hnil; rfl
  have hid : ∀ c ∈ joinTokens (l.map String.data), charNorm c = [c] := by
    intro c hc
    rcases mem_joinTokens _ c hc with ⟨p, hp, hcp⟩ | rfl
    · rcases List.mem_map.mp hp with ⟨s, hsl, rfl⟩
      exact charNorm_alnum c ((hmem s hsl).2 c hcp).2
    · exact charNorm_space
  have hmapid : ∀ ls : List String, ls.map (String.mk ∘ String.data) = ls := by
    intro ls
    induction ls with
    | nil => rfl
    | cons a as iha =>
      rw [List.map_cons, iha]
      rfl
  rw [norm_eq_core]
  rw [data_mk]
  rw [flatMap_charNorm_id _ hid]
  rw [pyTokens_joinTokens _ hparts]
  rw [List.map_map]
  rw [hmapid l]
  exact h

/-- Witness for C10: the token set of a lower-case two-token name,
re-rendered in the opposite order, normalizes to the same set. -/
theorem C10_normalizer_witness :
    (["PEREZ", "JUAN"].toFinset = _normalize_to_token_set (some "juan  perez")) ∧
    (_normalize_to_token_set (some (String.mk (joinTokens (["PEREZ", "JUAN"].map String.data)))) =
        _normalize_to_token_set (some "juan  perez") ∧
      _normalize_to_token_set (some "PEREZ JUAN") = _normalize_to_token_set (some "JUAN PEREZ")) :=
  ⟨by decide, C10_normalizer_idempotent (some "juan  perez") ["PEREZ", "JUAN"] (by decide)⟩
